import Mathlib

/-!
Verification of the order/inventory and cart/login logic of the shoe-store
e-commerce backend.

The JavaScript source is shallowly embedded:
* Mongoose documents become Lean structures (`Product`, `Cart`, `Order`,
  `UserState`).  Object ids are `Nat`; JS numbers for prices, stocks and
  quantities are `Int` (the claims here are decided at small integer values,
  where float64 arithmetic is exact).  Optional / possibly-`undefined` or
  `null` fields are `Option`.  Image and address fields, which no claim
  mentions, are omitted.
* A thrown `Error` becomes an `Except` error value; the error constructors
  carry exactly the data interpolated into the corresponding message string.
* A Mongo transaction (start/commit/abort) becomes a function returning the
  whole new state on success; an `.error` result models the aborted
  transaction, i.e. no document was created and no stock was changed.
* `pre('save')` hooks are applied wherever the source calls `.save()`.
-/

namespace ShoeStore

/-! ## Data model: products.model.js -/

/-- One entry of `productSchema.sizes`. -/
structure SizeOption where
  size : String
  stock : Int
deriving DecidableEq, Repr

/-- One entry of `productSchema.colors`. -/
structure ColorOption where
  color : String
  stock : Int
deriving DecidableEq, Repr

/-- A product document (`productSchema`).  Fields not used by any claim
(category, brand, images, ratings, comments, status flags) are omitted. -/
structure Product where
  pid : Nat
  name : String
  price : Int
  salePrice : Option Int
  onSale : Bool
  stock : Int
  sizes : List SizeOption
  colors : List ColorOption
deriving DecidableEq, Repr

/-- JS truthiness of a possibly-`undefined` string: `undefined` and the empty
string are falsy, every other string is truthy. -/
def truthyStr : Option String → Bool
  | none => false
  | some s => !(s == "")

/-! ## Data model: carts.model.js -/

/-- One entry of `cartSchema.items` (`cartItemSchema`). -/
structure CartItem where
  product : Nat
  quantity : Int
  price : Int
  salePrice : Option Int
  selectedSize : Option String
  selectedColor : Option String
deriving DecidableEq, Repr

/-- A cart document (`cartSchema`); the owning user is irrelevant to the
claims and omitted. -/
structure Cart where
  items : List CartItem
  totalPrice : Int
deriving DecidableEq, Repr

/-- The effective price used by the cart pre-save hook:
`item.salePrice !== undefined && item.salePrice < item.price ? item.salePrice : item.price`. -/
def cartItemEffectivePrice (it : CartItem) : Int :=
  match it.salePrice with
  | some sp => if sp < it.price then sp else it.price
  | none => it.price

/-- `cartSchema.pre('save')`: recompute `totalPrice` from the items. -/
def cartPreSave (c : Cart) : Cart :=
  { c with totalPrice := (c.items.map (fun it => cartItemEffectivePrice it * it.quantity)).sum }

/-! ## Data model: orders.model.js -/

/-- One entry of `orderSchema.items` (`orderItemSchema`); the `imageUrl`
snapshot is omitted.  `salePrice` defaults to `null` (`none`) when the
snapshotted product had none. -/
structure OrderItem where
  productId : Nat
  name : String
  price : Int
  salePrice : Option Int
  quantity : Int
  selectedSize : Option String
  selectedColor : Option String
deriving DecidableEq, Repr

/-- An order document (`orderSchema`); shipping address, payment method and
tracking number are omitted. -/
structure Order where
  oid : Nat
  userId : Nat
  items : List OrderItem
  totalAmount : Int
  orderStatus : String
  paymentStatus : String
deriving DecidableEq, Repr

/-- The effective price used by the order pre-save hook:
`(item.salePrice !== null && item.salePrice < item.price) ? item.salePrice : item.price`. -/
def orderItemEffectivePrice (it : OrderItem) : Int :=
  match it.salePrice with
  | some sp => if sp < it.price then sp else it.price
  | none => it.price

/-- `orderSchema.pre('save')`: recompute `totalAmount` from the items. -/
def orderPreSave (o : Order) : Order :=
  { o with totalAmount := (o.items.map (fun it => orderItemEffectivePrice it * it.quantity)).sum }

/-- The `orderStatus` enumeration of `orderSchema`, also used by the
orders service for validation. -/
def validStatuses : List String :=
  ["pending", "processing", "shipped", "delivered", "cancelled", "returned"]

/-! ## Carts repository (carts.repository.js) -/

/-- Errors thrown by the cart functions. -/
inductive CartErr
  | productNotFound
  | notEnoughStock (productName : String) (available : Option Int)
  | itemNotFound
deriving DecidableEq, Repr

/-- The carts repository reads `product.stockQuantity`.  The product schema
has no such field (its scalar stock field is named `stock`), so in JS the
property access evaluates to `undefined` on every product document. -/
def Product.stockQuantity (_ : Product) : Option Int := none

/-- JS `<` with a possibly-`undefined` left operand: `undefined < q`
evaluates to `false` for every number `q`. -/
def jsOptLt : Option Int → Int → Bool
  | none, _ => false
  | some a, b => a < b

/-- The line-identity test used by `addItemToCart` and `updateItemQuantity`:
`item.product.toString() === productId && item.selectedSize === selectedSize
&& item.selectedColor === selectedColor` (exact triple equality;
`undefined === undefined` is true). -/
def matchLine (productId : Nat) (selectedSize selectedColor : Option String)
    (it : CartItem) : Bool :=
  it.product == productId && it.selectedSize == selectedSize
    && it.selectedColor == selectedColor

/-- `Array.prototype.findIndex` over the cart lines, returned as a zipper
`(itemsBefore, foundItem, itemsAfter)` so that the subsequent in-place update
of the found line can be expressed functionally. -/
def findCartLine (productId : Nat) (selectedSize selectedColor : Option String) :
    List CartItem → Option (List CartItem × CartItem × List CartItem)
  | [] => none
  | it :: rest =>
    if matchLine productId selectedSize selectedColor it then
      some ([], it, rest)
    else (findCartLine productId selectedSize selectedColor rest).map
      (fun z => (it :: z.1, z.2.1, z.2.2))

namespace CartsRepo

/-- `addItemToCart` of carts.repository.js.  The stock checks compare the
requested quantity against `product.stockQuantity` (see
`Product.stockQuantity`). -/
def addItemToCart (products : List Product) (cart : Cart) (productId : Nat)
    (quantity price : Int) (salePrice : Option Int)
    (selectedSize selectedColor : Option String) : Except CartErr Cart :=
  match products.find? (fun p => p.pid == productId) with
  | none => .error .productNotFound
  | some product =>
    if jsOptLt product.stockQuantity quantity then
      .error (.notEnoughStock product.name product.stockQuantity)
    else
      match findCartLine productId selectedSize selectedColor cart.items with
      | some (pre, it, rest) =>
        let newQuantity := it.quantity + quantity
        if jsOptLt product.stockQuantity newQuantity then
          .error (.notEnoughStock product.name product.stockQuantity)
        else
          .ok (cartPreSave { cart with
            items := pre ++ { it with quantity := newQuantity } :: rest })
      | none =>
        .ok (cartPreSave { cart with
          items := cart.items ++
            [{ product := productId, quantity := quantity, price := price,
               salePrice := salePrice, selectedSize := selectedSize,
               selectedColor := selectedColor }] })

/-- The per-line removal criterion of `removeItemFromCart`: the product must
match exactly, while each selector matches when it equals the line value or
when the argument is `undefined` (`selectedSize === undefined ||
item.selectedSize === selectedSize`, likewise for the color). -/
def removalMatches (productId : Nat) (selectedSize selectedColor : Option String)
    (it : CartItem) : Bool :=
  (it.product == productId)
    && (selectedSize == none || it.selectedSize == selectedSize)
    && (selectedColor == none || it.selectedColor == selectedColor)

/-- `removeItemFromCart` of carts.repository.js: filter out every matching
line; if nothing was removed, throw. -/
def removeItemFromCart (cart : Cart) (productId : Nat)
    (selectedSize selectedColor : Option String) : Except CartErr Cart :=
  let remaining := cart.items.filter
    (fun it => !(removalMatches productId selectedSize selectedColor it))
  if remaining.length == cart.items.length then
    .error .itemNotFound
  else
    .ok (cartPreSave { cart with items := remaining })

/-- `updateItemQuantity` of carts.repository.js. -/
def updateItemQuantity (products : List Product) (cart : Cart) (productId : Nat)
    (newQuantity : Int) (selectedSize selectedColor : Option String) :
    Except CartErr Cart :=
  match findCartLine productId selectedSize selectedColor cart.items with
  | none => .error .itemNotFound
  | some (pre, it, rest) =>
    if newQuantity ≤ 0 then
      .ok (cartPreSave { cart with items := pre ++ rest })
    else
      match products.find? (fun p => p.pid == productId) with
      | none => .error .productNotFound
      | some product =>
        if jsOptLt product.stockQuantity newQuantity then
          .error (.notEnoughStock product.name product.stockQuantity)
        else
          .ok (cartPreSave { cart with
            items := pre ++ { it with quantity := newQuantity } :: rest })

/-- `clearCart` of carts.repository.js. -/
def clearCart (cart : Cart) : Cart :=
  cartPreSave { cart with items := [] }

end CartsRepo

namespace CartsService

/-- `addItemToCart` of carts.service.js: fetch the product and forward its
current `price` and `salePrice` (the latter regardless of `onSale`) to the
repository. -/
def addItemToCart (products : List Product) (cart : Cart) (productId : Nat)
    (quantity : Int) (selectedSize selectedColor : Option String) :
    Except CartErr Cart :=
  match products.find? (fun p => p.pid == productId) with
  | none => .error .productNotFound
  | some product =>
    CartsRepo.addItemToCart products cart productId quantity product.price
      product.salePrice selectedSize selectedColor

end CartsService

/-! ## Orders: errors -/

/-- Errors thrown along the order paths; each constructor carries the data
interpolated into the corresponding message. -/
inductive OrderErr
  | emptyCart
  | quantityTooSmall
  | productNotFound (productId : Nat)
  | sizeNotFound (size : Option String) (productName : String)
  | colorNotFound (color : Option String) (productName : String)
  | insufficientStock (productName : String) (selectedSize selectedColor : Option String)
      (requested available : Int)
  | repoInsufficientSize (productName : String) (size : Option String)
  | repoInsufficientColor (productName : String) (color : Option String)
  | repoInsufficientSimple (productName : String)
  | orderNotFound
  | invalidStatus (status : String)
deriving DecidableEq, Repr

/-! ## Orders repository (orders.repository.js) -/

/-- The size-branch of the stock decrement in the repository `createOrder`:
`findIndex(s => s.size === item.selectedSize)`, then throw when the index is
`-1` or the variant stock is insufficient, else subtract.  Both failure modes
raise the same insufficient-stock error, hence a single `none`. -/
def decSizes (sel : Option String) (q : Int) : List SizeOption → Option (List SizeOption)
  | [] => none
  | s :: rest =>
    if sel == some s.size then
      if s.stock < q then none
      else some ({ s with stock := s.stock - q } :: rest)
    else (decSizes sel q rest).map (fun l => s :: l)

/-- The color-branch of the stock decrement, analogous to `decSizes`. -/
def decColors (sel : Option String) (q : Int) : List ColorOption → Option (List ColorOption)
  | [] => none
  | c :: rest =>
    if sel == some c.color then
      if c.stock < q then none
      else some ({ c with stock := c.stock - q } :: rest)
    else (decColors sel q rest).map (fun l => c :: l)

/-- The size-branch of the stock reversal in `updateOrderStatus` /
`deleteOrder`: `findIndex(s => s.size === item.selectedSize)`; when found,
add the quantity back, otherwise leave the list unchanged. -/
def incSizes (sel : Option String) (q : Int) : List SizeOption → List SizeOption
  | [] => []
  | s :: rest =>
    if sel == some s.size then { s with stock := s.stock + q } :: rest
    else s :: incSizes sel q rest

/-- The color-branch of the stock reversal, analogous to `incSizes`. -/
def incColors (sel : Option String) (q : Int) : List ColorOption → List ColorOption
  | [] => []
  | c :: rest =>
    if sel == some c.color then { c with stock := c.stock + q } :: rest
    else c :: incColors sel q rest

/-- The per-item stock decrement of the repository `createOrder`: the size
variant whenever `sizes` is non-empty, else the color variant whenever
`colors` is non-empty, else the top-level `stock`. -/
def decrementStockForItem (product : Product) (item : OrderItem) :
    Except OrderErr Product :=
  if !product.sizes.isEmpty then
    match decSizes item.selectedSize item.quantity product.sizes with
    | none => .error (.repoInsufficientSize product.name item.selectedSize)
    | some l => .ok { product with sizes := l }
  else if !product.colors.isEmpty then
    match decColors item.selectedColor item.quantity product.colors with
    | none => .error (.repoInsufficientColor product.name item.selectedColor)
    | some l => .ok { product with colors := l }
  else
    if product.stock < item.quantity then
      .error (.repoInsufficientSimple product.name)
    else
      .ok { product with stock := product.stock - item.quantity }

/-- The per-item stock reversal shared by `updateOrderStatus` (cancellation)
and `deleteOrder`: the size variant when `sizes` is non-empty and the item
has a truthy `selectedSize`, else the color variant when `colors` is
non-empty and the item has a truthy `selectedColor`, else the top-level
`stock`; a selected variant that no longer exists is skipped. -/
def revertStockForItem (product : Product) (item : OrderItem) : Product :=
  if !product.sizes.isEmpty && truthyStr item.selectedSize then
    { product with sizes := incSizes item.selectedSize item.quantity product.sizes }
  else if !product.colors.isEmpty && truthyStr item.selectedColor then
    { product with colors := incColors item.selectedColor item.quantity product.colors }
  else
    { product with stock := product.stock + item.quantity }

/-- `Product.findById(id)` followed by `product.save()`: replace the document
with the given id (ids are unique in the collection). -/
def saveProduct (products : List Product) (productId : Nat) (p2 : Product) :
    List Product :=
  products.map (fun p => if p.pid == productId then p2 else p)

/-- One iteration of the decrement loop in the repository `createOrder`:
fetch the product (throwing when absent), decrement, save. -/
def decrementOne (products : List Product) (item : OrderItem) :
    Except OrderErr (List Product) :=
  match products.find? (fun p => p.pid == item.productId) with
  | none => .error (.productNotFound item.productId)
  | some product =>
    match decrementStockForItem product item with
    | .error e => .error e
    | .ok p2 => .ok (saveProduct products item.productId p2)

/-- The whole decrement loop of the repository `createOrder`. -/
def decrementAllStock (products : List Product) :
    List OrderItem → Except OrderErr (List Product)
  | [] => .ok products
  | item :: rest =>
    match decrementOne products item with
    | .error e => .error e
    | .ok ps2 => decrementAllStock ps2 rest

/-- One iteration of the reversal loop in `updateOrderStatus` / `deleteOrder`:
a missing product is skipped (`continue`), otherwise revert and save. -/
def revertOne (products : List Product) (item : OrderItem) : List Product :=
  match products.find? (fun p => p.pid == item.productId) with
  | none => products
  | some product =>
    saveProduct products item.productId (revertStockForItem product item)

/-- The whole reversal loop of `updateOrderStatus` / `deleteOrder`. -/
def revertAllStock (products : List Product) : List OrderItem → List Product
  | [] => products
  | item :: rest => revertAllStock (revertOne products item) rest

namespace OrdersRepo

/-- `createOrder` of orders.repository.js: save the new order (the pre-save
hook recomputes `totalAmount`), then decrement stock item by item, all inside
one transaction.  An `.error` result is the aborted transaction: no order
document exists and no stock was changed. -/
def createOrder (products : List Product) (orderData : Order) :
    Except OrderErr (Order × List Product) :=
  let newOrder := orderPreSave orderData
  match decrementAllStock products newOrder.items with
  | .error e => .error e
  | .ok ps2 => .ok (newOrder, ps2)

/-- `updateOrderStatus` of orders.repository.js: fetch the order, save it with
the new status (`save` runs the pre-save hook and validates the status
enumeration), and revert stock exactly when the status changes to
`cancelled` from a different status, in the same transaction. -/
def updateOrderStatus (products : List Product) (orders : List Order)
    (orderId : Nat) (newStatus : String) :
    Except OrderErr (Order × List Product × List Order) :=
  match orders.find? (fun o => o.oid == orderId) with
  | none => .error .orderNotFound
  | some order =>
    if !validStatuses.contains newStatus then
      .error (.invalidStatus newStatus)
    else
      let order2 := orderPreSave { order with orderStatus := newStatus }
      let ps2 :=
        if newStatus == "cancelled" && !(order.orderStatus == "cancelled") then
          revertAllStock products order.items
        else products
      .ok (order2, ps2,
        orders.map (fun o => if o.oid == orderId then order2 else o))

/-- `deleteOrder` of orders.repository.js: fetch the order, revert stock for
every item, then delete the order document, in one transaction. -/
def deleteOrder (products : List Product) (orders : List Order) (orderId : Nat) :
    Except OrderErr (Order × List Product × List Order) :=
  match orders.find? (fun o => o.oid == orderId) with
  | none => .error .orderNotFound
  | some orderToDelete =>
    .ok (orderToDelete, revertAllStock products orderToDelete.items,
      orders.filter (fun o => !(o.oid == orderId)))

end OrdersRepo

/-! ## Orders service (orders.service.js) -/

/-- The stock resolution of the service layer (`createOrderFromCart` /
`createDirectOrder`): the size variant when a size is selected (truthy) and
`sizes` is non-empty (throwing when the selected size is absent), else the
color variant likewise, else the top-level `stock`. -/
def resolveAvailableStock (product : Product)
    (selectedSize selectedColor : Option String) : Except OrderErr Int :=
  if truthyStr selectedSize && !product.sizes.isEmpty then
    match product.sizes.find? (fun s => selectedSize == some s.size) with
    | none => .error (.sizeNotFound selectedSize product.name)
    | some sizeOption => .ok sizeOption.stock
  else if truthyStr selectedColor && !product.colors.isEmpty then
    match product.colors.find? (fun c => selectedColor == some c.color) with
    | none => .error (.colorNotFound selectedColor product.name)
    | some colorOption => .ok colorOption.stock
  else
    .ok product.stock

/-- The effective price computed at order-build time in the service:
`(product.onSale && product.salePrice !== undefined && product.salePrice <
product.price) ? product.salePrice : product.price`. -/
def serviceEffectivePrice (p : Product) : Int :=
  match p.salePrice with
  | some sp => if p.onSale ∧ sp < p.price then sp else p.price
  | none => p.price

/-- One iteration of the item loop of `createOrderFromCart`: fetch the
product, resolve available stock, check it against the requested quantity,
and snapshot the product data into an order item together with the line
total. -/
def buildOrderLine (products : List Product) (cartItem : CartItem) :
    Except OrderErr (OrderItem × Int) :=
  match products.find? (fun p => p.pid == cartItem.product) with
  | none => .error (.productNotFound cartItem.product)
  | some product =>
    match resolveAvailableStock product cartItem.selectedSize cartItem.selectedColor with
    | .error e => .error e
    | .ok availableStock =>
      if availableStock < cartItem.quantity then
        .error (.insufficientStock product.name cartItem.selectedSize
          cartItem.selectedColor cartItem.quantity availableStock)
      else
        .ok ({ productId := product.pid, name := product.name,
               price := product.price, salePrice := product.salePrice,
               quantity := cartItem.quantity,
               selectedSize := cartItem.selectedSize,
               selectedColor := cartItem.selectedColor },
             serviceEffectivePrice product * cartItem.quantity)

/-- The whole item loop of `createOrderFromCart`, accumulating the snapshot
items and `calculatedTotalAmount`. -/
def buildOrderItems (products : List Product) :
    List CartItem → Except OrderErr (List OrderItem × Int)
  | [] => .ok ([], 0)
  | cartItem :: rest =>
    match buildOrderLine products cartItem with
    | .error e => .error e
    | .ok (item, lineTotal) =>
      match buildOrderItems products rest with
      | .error e => .error e
      | .ok (items, total) => .ok (item :: items, lineTotal + total)

namespace OrdersService

/-- `createOrderFromCart` of orders.service.js: reject an empty cart, build
the snapshot items with stock validation, create the order through the
repository (which decrements stock transactionally), then clear the cart. -/
def createOrderFromCart (products : List Product) (cart : Cart)
    (nextOrderId userId : Nat) : Except OrderErr (Order × List Product × Cart) :=
  if cart.items.isEmpty then .error .emptyCart
  else
    match buildOrderItems products cart.items with
    | .error e => .error e
    | .ok (orderItems, calculatedTotalAmount) =>
      let orderData : Order :=
        { oid := nextOrderId, userId := userId, items := orderItems,
          totalAmount := calculatedTotalAmount,
          orderStatus := "pending", paymentStatus := "pending" }
      match OrdersRepo.createOrder products orderData with
      | .error e => .error e
      | .ok (newOrder, ps2) =>
        .ok (newOrder, ps2, cartPreSave { cart with items := [] })

/-- `createDirectOrder` of orders.service.js: validate the quantity, fetch
the product, resolve and check stock, snapshot, and create through the
repository. -/
def createDirectOrder (products : List Product) (productId : Nat)
    (quantity : Int) (selectedSize selectedColor : Option String)
    (nextOrderId userId : Nat) : Except OrderErr (Order × List Product) :=
  if quantity < 1 then .error .quantityTooSmall
  else
    match products.find? (fun p => p.pid == productId) with
    | none => .error (.productNotFound productId)
    | some product =>
      match resolveAvailableStock product selectedSize selectedColor with
      | .error e => .error e
      | .ok availableStock =>
        if availableStock < quantity then
          .error (.insufficientStock product.name selectedSize selectedColor
            quantity availableStock)
        else
          OrdersRepo.createOrder products
            { oid := nextOrderId, userId := userId,
              items := [{ productId := product.pid, name := product.name,
                          price := product.price, salePrice := product.salePrice,
                          quantity := quantity, selectedSize := selectedSize,
                          selectedColor := selectedColor }],
              totalAmount := serviceEffectivePrice product * quantity,
              orderStatus := "pending", paymentStatus := "pending" }

/-- `updateOrderStatus` of orders.service.js: check the order exists, check
the new status against the enumeration, then delegate to the repository. -/
def updateOrderStatus (products : List Product) (orders : List Order)
    (orderId : Nat) (newStatus : String) :
    Except OrderErr (Order × List Product × List Order) :=
  match orders.find? (fun o => o.oid == orderId) with
  | none => .error .orderNotFound
  | some _ =>
    if validStatuses.contains newStatus then
      OrdersRepo.updateOrderStatus products orders orderId newStatus
    else
      .error (.invalidStatus newStatus)

/-- `deleteOrder` of orders.service.js: delegate to the repository, which
throws when the order does not exist. -/
def deleteOrder (products : List Product) (orders : List Order) (orderId : Nat) :
    Except OrderErr (Order × List Product × List Order) :=
  OrdersRepo.deleteOrder products orders orderId

end OrdersService

/-! ## Login lockout (users service in products.service.js, users.repository.js)

Timestamps (`Date` values) are milliseconds as `Int`; each call to
`loginUser` receives the current time `now`.  The password comparison
(`bcrypt.compare`) is abstracted into the boolean `passwordValid`. -/

/-- The lockout-related fields of a user document (users.model.js); their
schema defaults are `0`, `null`, `false`, `null`. -/
structure UserState where
  failedLoginAttempts : Nat
  lockUntil : Option Int
  isPermanentlyLocked : Bool
  lastFailedAttemptAt : Option Int
deriving DecidableEq, Repr

/-- The outcome of one `loginUser` call; each error constructor corresponds
to one thrown message. -/
inductive LoginResult
  | invalidCredentials
  | permanentlyLockedError
  | temporarilyLockedError
  | nowTemporarilyLocked
  | nowPermanentlyLocked
  | success
deriving DecidableEq, Repr

/-- `MAX_LOGIN_ATTEMPTS` of products.service.js. -/
def MAX_LOGIN_ATTEMPTS : Nat := 5

/-- `TEMPORARY_LOCK_TIME` (milliseconds) of products.service.js. -/
def TEMPORARY_LOCK_TIME : Int := 1 * 60 * 1000

/-- `FAILED_ATTEMPT_RESET_PERIOD` (milliseconds) of products.service.js. -/
def FAILED_ATTEMPT_RESET_PERIOD : Int := 30 * 60 * 1000

/-- `user.lockUntil && user.lockUntil > new Date()`. -/
def lockActive (lockUntil : Option Int) (now : Int) : Bool :=
  match lockUntil with
  | some lu => now < lu
  | none => false

/-- `user.lastFailedAttemptAt && (new Date() - user.lastFailedAttemptAt) >
FAILED_ATTEMPT_RESET_PERIOD`. -/
def staleWindow (lastFailedAttemptAt : Option Int) (now : Int) : Bool :=
  match lastFailedAttemptAt with
  | some la => FAILED_ATTEMPT_RESET_PERIOD < now - la
  | none => false

namespace UsersRepo

/-- `resetFailedLoginAttempts` of users.repository.js. -/
def resetFailedLoginAttempts (_ : UserState) : UserState :=
  { failedLoginAttempts := 0, lockUntil := none,
    isPermanentlyLocked := false, lastFailedAttemptAt := none }

/-- `incrementFailedLoginAttempts` of users.repository.js; `lockUntilTime`
defaults to `null`, in which case `lockUntil` is left untouched. -/
def incrementFailedLoginAttempts (u : UserState) (now : Int)
    (lockUntilTime : Option Int) : UserState :=
  { u with failedLoginAttempts := u.failedLoginAttempts + 1,
           lastFailedAttemptAt := some now,
           lockUntil := match lockUntilTime with
             | none => u.lockUntil
             | some t => some t }

/-- `permanentlyLockUser` of users.repository.js. -/
def permanentlyLockUser (_ : UserState) : UserState :=
  { failedLoginAttempts := 0, lockUntil := none,
    isPermanentlyLocked := true, lastFailedAttemptAt := none }

end UsersRepo

namespace UsersService

/-- `loginUser` of the users service: permanent-lock check, then unexpired
temporary-lock check, then stale-counter reset, then the password
comparison; a wrong password increments the counter and applies the
temporary lock at exactly `MAX_LOGIN_ATTEMPTS` (a second increment carrying
the expiry timestamp) and the permanent lock above it; a correct password
resets the lockout fields when any of them is set. -/
def loginUser (u : UserState) (passwordValid : Bool) (now : Int) :
    LoginResult × UserState :=
  if u.isPermanentlyLocked then
    (.permanentlyLockedError, u)
  else if lockActive u.lockUntil now then
    (.temporarilyLockedError, u)
  else
    let user :=
      if decide (0 < u.failedLoginAttempts) && staleWindow u.lastFailedAttemptAt now then
        UsersRepo.resetFailedLoginAttempts u
      else u
    if !passwordValid then
      let user2 := UsersRepo.incrementFailedLoginAttempts user now none
      if MAX_LOGIN_ATTEMPTS < user2.failedLoginAttempts then
        (.nowPermanentlyLocked, UsersRepo.permanentlyLockUser user2)
      else if user2.failedLoginAttempts == MAX_LOGIN_ATTEMPTS then
        (.nowTemporarilyLocked,
          UsersRepo.incrementFailedLoginAttempts user2 now
            (some (now + TEMPORARY_LOCK_TIME)))
      else
        (.invalidCredentials, user2)
    else
      if decide (0 < user.failedLoginAttempts) || user.lockUntil.isSome
          || user.isPermanentlyLocked then
        (.success, UsersRepo.resetFailedLoginAttempts user)
      else
        (.success, user)

/-- A sequence of login attempts with a wrong password at the given times,
returning the final user state. -/
def runFailedLogins (u : UserState) : List Int → UserState
  | [] => u
  | t :: rest => runFailedLogins (loginUser u false t).2 rest

end UsersService

/-! ## Claim-side definitions -/

/-- The effective-price rule as the specification words it (for order totals
and, per the claim, also for cart totals): `salePrice` when the product is on
sale and `salePrice` is lower than `price`; otherwise `price`.  Stated from
the specification, to be compared with the hooks embedded from the source. -/
def claimedEffectivePrice (onSale : Bool) (salePrice : Option Int) (price : Int) : Int :=
  match salePrice with
  | some sp => if onSale = true ∧ sp < price then sp else price
  | none => price

/-- The products on which the service-side and hook-side effective prices
coincide: on sale, or no sale price, or a sale price that is not lower than
the price. -/
def saleAgrees (p : Product) : Prop :=
  p.onSale = true ∨ p.salePrice = none ∨ ∃ sp, p.salePrice = some sp ∧ p.price ≤ sp

/-- The schema invariant on variant names: `size` and `color` are required,
trimmed, non-empty strings (`productSchema` and `createProductValidation`). -/
def Product.validShape (p : Product) : Prop :=
  (∀ s ∈ p.sizes, s.size ≠ "") ∧ (∀ c ∈ p.colors, c.color ≠ "")

instance (p : Product) : Decidable p.validShape := by
  unfold Product.validShape; infer_instance

/-! ## Lemmas about variant stock updates -/

theorem incSizes_length (sel : Option String) (q : Int) (l : List SizeOption) :
    (incSizes sel q l).length = l.length := by
  induction l with
  | nil => rfl
  | cons s rest ih => simp only [incSizes]; split <;> simp [ih]

theorem incColors_length (sel : Option String) (q : Int) (l : List ColorOption) :
    (incColors sel q l).length = l.length := by
  induction l with
  | nil => rfl
  | cons c rest ih => simp only [incColors]; split <;> simp [ih]

theorem decSizes_length (sel : Option String) (q : Int) {l l' : List SizeOption}
    (h : decSizes sel q l = some l') : l'.length = l.length := by
  induction l generalizing l' with
  | nil => simp [decSizes] at h
  | cons s rest ih =>
    simp only [decSizes] at h
    split at h
    · split at h
      · exact absurd h (by simp)
      · obtain rfl := Option.some.inj h; simp
    · obtain ⟨m, hm, rfl⟩ := Option.map_eq_some'.mp h
      simp [ih hm]

theorem decColors_length (sel : Option String) (q : Int) {l l' : List ColorOption}
    (h : decColors sel q l = some l') : l'.length = l.length := by
  induction l generalizing l' with
  | nil => simp [decColors] at h
  | cons c rest ih =>
    simp only [decColors] at h
    split at h
    · split at h
      · exact absurd h (by simp)
      · obtain rfl := Option.some.inj h; simp
    · obtain ⟨m, hm, rfl⟩ := Option.map_eq_some'.mp h
      simp [ih hm]

theorem decSizes_mem (sel : Option String) (q : Int) {l l' : List SizeOption}
    (h : decSizes sel q l = some l') : ∃ s ∈ l, sel = some s.size := by
  induction l generalizing l' with
  | nil => simp [decSizes] at h
  | cons s rest ih =>
    by_cases hsel : sel == some s.size
    · exact ⟨s, by simp, by simpa using hsel⟩
    · rw [decSizes, if_neg hsel] at h
      obtain ⟨m, hm, rfl⟩ := Option.map_eq_some'.mp h
      obtain ⟨x, hx, hsel2⟩ := ih hm
      exact ⟨x, by simp [hx], hsel2⟩

theorem decColors_mem (sel : Option String) (q : Int) {l l' : List ColorOption}
    (h : decColors sel q l = some l') : ∃ c ∈ l, sel = some c.color := by
  induction l generalizing l' with
  | nil => simp [decColors] at h
  | cons c rest ih =>
    by_cases hsel : sel == some c.color
    · exact ⟨c, by simp, by simpa using hsel⟩
    · rw [decColors, if_neg hsel] at h
      obtain ⟨m, hm, rfl⟩ := Option.map_eq_some'.mp h
      obtain ⟨x, hx, hsel2⟩ := ih hm
      exact ⟨x, by simp [hx], hsel2⟩

theorem decSizes_incSizes (sel : Option String) (q : Int) {l l' : List SizeOption}
    (h : decSizes sel q l = some l') : incSizes sel q l' = l := by
  induction l generalizing l' with
  | nil => simp [decSizes] at h
  | cons s rest ih =>
    by_cases hsel : sel == some s.size
    · rw [decSizes, if_pos hsel] at h
      by_cases hst : s.stock < q
      · rw [if_pos hst] at h; exact absurd h (by simp)
      · rw [if_neg hst] at h
        obtain rfl := Option.some.inj h
        rw [incSizes, if_pos (by simpa using hsel)]
        simp [sub_add_cancel]
    · rw [decSizes, if_neg hsel] at h
      obtain ⟨m, hm, rfl⟩ := Option.map_eq_some'.mp h
      rw [incSizes, if_neg hsel, ih hm]

theorem decColors_incColors (sel : Option String) (q : Int) {l l' : List ColorOption}
    (h : decColors sel q l = some l') : incColors sel q l' = l := by
  induction l generalizing l' with
  | nil => simp [decColors] at h
  | cons c rest ih =>
    by_cases hsel : sel == some c.color
    · rw [decColors, if_pos hsel] at h
      by_cases hst : c.stock < q
      · rw [if_pos hst] at h; exact absurd h (by simp)
      · rw [if_neg hst] at h
        obtain rfl := Option.some.inj h
        rw [incColors, if_pos (by simpa using hsel)]
        simp [sub_add_cancel]
    · rw [decColors, if_neg hsel] at h
      obtain ⟨m, hm, rfl⟩ := Option.map_eq_some'.mp h
      rw [incColors, if_neg hsel, ih hm]

theorem incSizes_no_match (sel : Option String) (q : Int) {l : List SizeOption}
    (h : ∀ s ∈ l, sel ≠ some s.size) : incSizes sel q l = l := by
  induction l with
  | nil => rfl
  | cons s rest ih =>
    simp only [incSizes]
    rw [if_neg (by simpa using h s (by simp)), ih (fun x hx => h x (by simp [hx]))]

theorem incColors_no_match (sel : Option String) (q : Int) {l : List ColorOption}
    (h : ∀ c ∈ l, sel ≠ some c.color) : incColors sel q l = l := by
  induction l with
  | nil => rfl
  | cons c rest ih =>
    simp only [incColors]
    rw [if_neg (by simpa using h c (by simp)), ih (fun x hx => h x (by simp [hx]))]

theorem incSizes_isEmpty (sel : Option String) (q : Int) (l : List SizeOption) :
    (incSizes sel q l).isEmpty = l.isEmpty := by
  cases l with
  | nil => rfl
  | cons s rest => rw [incSizes]; split <;> rfl

theorem incColors_isEmpty (sel : Option String) (q : Int) (l : List ColorOption) :
    (incColors sel q l).isEmpty = l.isEmpty := by
  cases l with
  | nil => rfl
  | cons c rest => rw [incColors]; split <;> rfl

theorem incSizes_comm (sa sb : Option String) (qa qb : Int) (l : List SizeOption) :
    incSizes sa qa (incSizes sb qb l) = incSizes sb qb (incSizes sa qa l) := by
  induction l with
  | nil => rfl
  | cons s rest ih =>
    by_cases ha : sa == some s.size <;> by_cases hb : sb == some s.size <;>
      simp [incSizes, ha, hb, ih, add_right_comm]

theorem incColors_comm (sa sb : Option String) (qa qb : Int) (l : List ColorOption) :
    incColors sa qa (incColors sb qb l) = incColors sb qb (incColors sa qa l) := by
  induction l with
  | nil => rfl
  | cons c rest ih =>
    by_cases ha : sa == some c.color <;> by_cases hb : sb == some c.color <;>
      simp [incColors, ha, hb, ih, add_right_comm]

theorem decSizes_names (sel : Option String) (q : Int) {l l' : List SizeOption}
    (h : decSizes sel q l = some l') :
    l'.map SizeOption.size = l.map SizeOption.size := by
  induction l generalizing l' with
  | nil => simp [decSizes] at h
  | cons s rest ih =>
    by_cases hsel : sel == some s.size
    · rw [decSizes, if_pos hsel] at h
      by_cases hst : s.stock < q
      · rw [if_pos hst] at h; exact absurd h (by simp)
      · rw [if_neg hst] at h
        obtain rfl := Option.some.inj h; simp
    · rw [decSizes, if_neg hsel] at h
      obtain ⟨m, hm, rfl⟩ := Option.map_eq_some'.mp h
      simp [ih hm]

theorem decColors_names (sel : Option String) (q : Int) {l l' : List ColorOption}
    (h : decColors sel q l = some l') :
    l'.map ColorOption.color = l.map ColorOption.color := by
  induction l generalizing l' with
  | nil => simp [decColors] at h
  | cons c rest ih =>
    by_cases hsel : sel == some c.color
    · rw [decColors, if_pos hsel] at h
      by_cases hst : c.stock < q
      · rw [if_pos hst] at h; exact absurd h (by simp)
      · rw [if_neg hst] at h
        obtain rfl := Option.some.inj h; simp
    · rw [decColors, if_neg hsel] at h
      obtain ⟨m, hm, rfl⟩ := Option.map_eq_some'.mp h
      simp [ih hm]

/-! ## Lemmas about per-product decrement and reversal -/

theorem decrement_fields {p p2 : Product} {it : OrderItem}
    (h : decrementStockForItem p it = .ok p2) :
    p2.pid = p.pid ∧ p2.name = p.name
      ∧ p2.sizes.map SizeOption.size = p.sizes.map SizeOption.size
      ∧ p2.colors.map ColorOption.color = p.colors.map ColorOption.color := by
  by_cases hs : p.sizes.isEmpty
  · by_cases hc : p.colors.isEmpty
    · rw [decrementStockForItem, if_neg (by simp [hs]), if_neg (by simp [hc])] at h
      by_cases hst : p.stock < it.quantity
      · rw [if_pos hst] at h; exact absurd h (by simp)
      · rw [if_neg hst] at h
        obtain rfl := Except.ok.inj h; simp
    · rw [decrementStockForItem, if_neg (by simp [hs]), if_pos (by simp [hc])] at h
      cases hdec : decColors it.selectedColor it.quantity p.colors with
      | none => rw [hdec] at h; exact absurd h (by simp)
      | some l =>
        rw [hdec] at h
        obtain rfl := Except.ok.inj h
        simp [decColors_names _ _ hdec]
  · rw [decrementStockForItem, if_pos (by simp [hs])] at h
    cases hdec : decSizes it.selectedSize it.quantity p.sizes with
    | none => rw [hdec] at h; exact absurd h (by simp)
    | some l =>
      rw [hdec] at h
      obtain rfl := Except.ok.inj h
      simp [decSizes_names _ _ hdec]

theorem decrement_validShape {p p2 : Product} {it : OrderItem}
    (h : decrementStockForItem p it = .ok p2) (hv : p.validShape) : p2.validShape := by
  obtain ⟨-, -, hsz, hcl⟩ := decrement_fields h
  constructor
  · intro s hs
    have : s.size ∈ p.sizes.map SizeOption.size := by
      rw [← hsz]; exact List.mem_map_of_mem _ hs
    obtain ⟨x, hx, hxe⟩ := List.mem_map.mp this
    exact hxe ▸ hv.1 x hx
  · intro c hc
    have : c.color ∈ p.colors.map ColorOption.color := by
      rw [← hcl]; exact List.mem_map_of_mem _ hc
    obtain ⟨x, hx, hxe⟩ := List.mem_map.mp this
    exact hxe ▸ hv.2 x hx

theorem isEmpty_of_length_eq {α β : Type} {l : List α} {m : List β}
    (h : l.length = m.length) : l.isEmpty = m.isEmpty := by
  cases l <;> cases m <;> simp_all

theorem revert_pid (p : Product) (it : OrderItem) :
    (revertStockForItem p it).pid = p.pid := by
  rw [revertStockForItem]; split
  · rfl
  · split <;> rfl

theorem decrement_revert {p p2 : Product} {it : OrderItem}
    (hv : p.validShape) (h : decrementStockForItem p it = .ok p2) :
    revertStockForItem p2 it = p := by
  by_cases hs : p.sizes.isEmpty
  · by_cases hc : p.colors.isEmpty
    · rw [decrementStockForItem, if_neg (by simp [hs]), if_neg (by simp [hc])] at h
      by_cases hst : p.stock < it.quantity
      · rw [if_pos hst] at h; exact absurd h (by simp)
      · rw [if_neg hst] at h
        obtain rfl := Except.ok.inj h
        rw [revertStockForItem, if_neg (by simp [hs]), if_neg (by simp [hc])]
        simp [sub_add_cancel]
    · rw [decrementStockForItem, if_neg (by simp [hs]), if_pos (by simp [hc])] at h
      cases hdec : decColors it.selectedColor it.quantity p.colors with
      | none => rw [hdec] at h; exact absurd h (by simp)
      | some l =>
        rw [hdec] at h
        obtain rfl := Except.ok.inj h
        obtain ⟨c, hcm, hcsel⟩ := decColors_mem _ _ hdec
        have hlen : l.length = p.colors.length := decColors_length _ _ hdec
        have htr : truthyStr it.selectedColor = true := by
          rw [hcsel, truthyStr]
          simpa using hv.2 c hcm
        rw [revertStockForItem, if_neg (by simp [hs]),
          if_pos (by
            simp only [htr, Bool.and_true]
            rw [isEmpty_of_length_eq hlen]
            simpa using hc),
          decColors_incColors _ _ hdec]
  · rw [decrementStockForItem, if_pos (by simp [hs])] at h
    cases hdec : decSizes it.selectedSize it.quantity p.sizes with
    | none => rw [hdec] at h; exact absurd h (by simp)
    | some l =>
      rw [hdec] at h
      obtain rfl := Except.ok.inj h
      obtain ⟨s, hsm, hssel⟩ := decSizes_mem _ _ hdec
      have hlen : l.length = p.sizes.length := decSizes_length _ _ hdec
      have htr : truthyStr it.selectedSize = true := by
        rw [hssel, truthyStr]
        simpa using hv.1 s hsm
      rw [revertStockForItem,
        if_pos (by
          simp only [htr, Bool.and_true]
          rw [isEmpty_of_length_eq hlen]
          simpa using hs),
        decSizes_incSizes _ _ hdec]

theorem revert_comm (p : Product) (a b : OrderItem) :
    revertStockForItem (revertStockForItem p a) b
      = revertStockForItem (revertStockForItem p b) a := by
  by_cases ha1 : (!p.sizes.isEmpty && truthyStr a.selectedSize) = true <;>
    by_cases hb1 : (!p.sizes.isEmpty && truthyStr b.selectedSize) = true <;>
    by_cases ha2 : (!p.colors.isEmpty && truthyStr a.selectedColor) = true <;>
    by_cases hb2 : (!p.colors.isEmpty && truthyStr b.selectedColor) = true <;>
    simp [revertStockForItem, ha1, hb1, ha2, hb2, incSizes_isEmpty, incColors_isEmpty,
      incSizes_comm, incColors_comm, add_right_comm]

/-! ## Lemmas about the product collection -/

theorem mem_unique_of_nodup {ps : List Product}
    (hnodup : (ps.map Product.pid).Nodup) {p q : Product}
    (hp : p ∈ ps) (hq : q ∈ ps) (hpid : p.pid = q.pid) : p = q :=
  List.inj_on_of_nodup_map hnodup hp hq hpid

theorem saveProduct_find? {ps : List Product} {productId : Nat} {p p2 : Product}
    (hfind : ps.find? (fun x => x.pid == productId) = some p)
    (hpid : p2.pid = productId) :
    (saveProduct ps productId p2).find? (fun x => x.pid == productId) = some p2 := by
  induction ps with
  | nil => simp at hfind
  | cons q rest ih =>
    by_cases hq : (q.pid == productId) = true
    · rw [saveProduct, List.map_cons, if_pos hq]
      exact List.find?_cons_of_pos _ (by simp [hpid])
    · rw [List.find?_cons_of_neg _ (by simpa using hq)] at hfind
      rw [saveProduct, List.map_cons, if_neg hq]
      rw [List.find?_cons_of_neg _ (by simpa using hq)]
      exact ih hfind

theorem saveProduct_map_pid {ps : List Product} {productId : Nat} {p2 : Product}
    (hpid : p2.pid = productId) :
    (saveProduct ps productId p2).map Product.pid = ps.map Product.pid := by
  rw [saveProduct, List.map_map]
  refine List.map_congr_left (fun q _ => ?_)
  by_cases hq : (q.pid == productId) = true
  · have hq2 : q.pid = productId := by simpa using hq
    rw [Function.comp_apply, if_pos hq, hpid, hq2]
  · rw [Function.comp_apply, if_neg hq]

theorem saveProduct_mem {ps : List Product} {productId : Nat} {p2 q' : Product}
    (h : q' ∈ saveProduct ps productId p2) : q' = p2 ∨ q' ∈ ps := by
  rw [saveProduct] at h
  obtain ⟨q, hq, hqe⟩ := List.mem_map.mp h
  by_cases hmatch : (q.pid == productId) = true
  · rw [if_pos hmatch] at hqe; exact Or.inl hqe.symm
  · rw [if_neg hmatch] at hqe; exact Or.inr (hqe ▸ hq)

theorem saveProduct_self {ps : List Product} {productId : Nat} {p : Product}
    (hnodup : (ps.map Product.pid).Nodup)
    (hfind : ps.find? (fun x => x.pid == productId) = some p) :
    saveProduct ps productId p = ps := by
  have hp : p ∈ ps := List.mem_of_find?_eq_some hfind
  have hppid : p.pid = productId := by simpa using List.find?_some hfind
  rw [saveProduct]
  have : ∀ q ∈ ps, (if q.pid == productId then p else q) = q := by
    intro q hq
    by_cases hmatch : (q.pid == productId) = true
    · rw [if_pos hmatch]
      have hq2 : q.pid = productId := by simpa using hmatch
      exact mem_unique_of_nodup hnodup hp hq (by rw [hppid, hq2])
    · rw [if_neg hmatch]
  rw [List.map_congr_left this]
  simp

theorem saveProduct_saveProduct {ps : List Product} {productId : Nat} {p2 p3 : Product}
    (hpid : p2.pid = productId) :
    saveProduct (saveProduct ps productId p2) productId p3
      = saveProduct ps productId p3 := by
  simp only [saveProduct, List.map_map]
  refine List.map_congr_left (fun q _ => ?_)
  simp only [Function.comp_apply]
  by_cases hq : (q.pid == productId) = true
  · simp only [if_pos hq, if_pos (show (p2.pid == productId) = true by simp [hpid])]
  · simp only [if_neg hq]

theorem decrementOne_ok {ps ps1 : List Product} {it : OrderItem}
    (h : decrementOne ps it = .ok ps1) :
    ∃ p p2, ps.find? (fun x => x.pid == it.productId) = some p
      ∧ decrementStockForItem p it = .ok p2
      ∧ p2.pid = it.productId
      ∧ ps1 = saveProduct ps it.productId p2 := by
  rw [decrementOne] at h
  split at h
  · exact absurd h (by simp)
  · rename_i p hfind
    split at h
    · exact absurd h (by simp)
    · rename_i p2 hdec
      obtain rfl := Except.ok.inj h
      have hppid : p.pid = it.productId := by simpa using List.find?_some hfind
      exact ⟨p, p2, hfind, hdec, (decrement_fields hdec).1.trans hppid, rfl⟩

theorem decrementOne_map_pid {ps ps1 : List Product} {it : OrderItem}
    (h : decrementOne ps it = .ok ps1) :
    ps1.map Product.pid = ps.map Product.pid := by
  obtain ⟨p, p2, hfind, hdec, hpid, rfl⟩ := decrementOne_ok h
  exact saveProduct_map_pid hpid

theorem decrementOne_shape {ps ps1 : List Product} {it : OrderItem}
    (h : decrementOne ps it = .ok ps1) (hshape : ∀ p ∈ ps, p.validShape) :
    ∀ p ∈ ps1, p.validShape := by
  obtain ⟨p, p2, hfind, hdec, hpid, rfl⟩ := decrementOne_ok h
  intro q hq
  rcases saveProduct_mem hq with rfl | hq2
  · exact decrement_validShape hdec (hshape p (List.mem_of_find?_eq_some hfind))
  · exact hshape q hq2

theorem decrementOne_revertOne {ps ps1 : List Product} {it : OrderItem}
    (hnodup : (ps.map Product.pid).Nodup) (hshape : ∀ p ∈ ps, p.validShape)
    (h : decrementOne ps it = .ok ps1) : revertOne ps1 it = ps := by
  obtain ⟨p, p2, hfind, hdec, hpid, rfl⟩ := decrementOne_ok h
  rw [revertOne, saveProduct_find? hfind hpid]
  show saveProduct (saveProduct ps it.productId p2) it.productId
    (revertStockForItem p2 it) = ps
  rw [decrement_revert (hshape p (List.mem_of_find?_eq_some hfind)) hdec,
    saveProduct_saveProduct hpid, saveProduct_self hnodup hfind]

/-- The pointwise form of `revertOne`, used to reorder reversal steps;
it agrees with `revertOne` on collections with unique ids. -/
def pointwiseRevert (it : OrderItem) (ps : List Product) : List Product :=
  ps.map (fun p => if p.pid == it.productId then revertStockForItem p it else p)

theorem revertOne_pointwise {ps : List Product} {it : OrderItem}
    (hnodup : (ps.map Product.pid).Nodup) :
    revertOne ps it = pointwiseRevert it ps := by
  cases hfind : ps.find? (fun x => x.pid == it.productId) with
  | none =>
    have hno := List.find?_eq_none.mp hfind
    have hpt : pointwiseRevert it ps = ps := by
      rw [pointwiseRevert]
      have : ∀ q ∈ ps, (if q.pid == it.productId then revertStockForItem q it else q) = q :=
        fun q hq => if_neg (hno q hq)
      rw [List.map_congr_left this]
      simp
    rw [revertOne, hfind, hpt]
  | some p =>
    have hp : p ∈ ps := List.mem_of_find?_eq_some hfind
    have hppid : p.pid = it.productId := by simpa using List.find?_some hfind
    have hpt : pointwiseRevert it ps
        = saveProduct ps it.productId (revertStockForItem p it) := by
      rw [pointwiseRevert, saveProduct]
      refine List.map_congr_left (fun q hq => ?_)
      by_cases hmatch : (q.pid == it.productId) = true
      · rw [if_pos hmatch, if_pos hmatch]
        have : q = p :=
          mem_unique_of_nodup hnodup hq hp (by rw [hppid]; simpa using hmatch)
        rw [this]
      · rw [if_neg hmatch, if_neg hmatch]
    rw [revertOne, hfind, hpt]

theorem pointwiseRevert_map_pid (it : OrderItem) (ps : List Product) :
    (pointwiseRevert it ps).map Product.pid = ps.map Product.pid := by
  rw [pointwiseRevert, List.map_map]
  refine List.map_congr_left (fun q _ => ?_)
  by_cases hmatch : (q.pid == it.productId) = true
  · simp only [Function.comp_apply, if_pos hmatch, revert_pid]
  · simp only [Function.comp_apply, if_neg hmatch]

theorem pointwiseRevert_comm (a b : OrderItem) (ps : List Product) :
    pointwiseRevert a (pointwiseRevert b ps) = pointwiseRevert b (pointwiseRevert a ps) := by
  simp only [pointwiseRevert, List.map_map]
  refine List.map_congr_left (fun p _ => ?_)
  simp only [Function.comp_apply]
  by_cases hpa : (p.pid == a.productId) = true
  · by_cases hpb : (p.pid == b.productId) = true
    · rw [if_pos hpb, if_pos hpa,
        if_pos (show ((revertStockForItem p b).pid == a.productId) = true by
          rw [revert_pid]; exact hpa),
        if_pos (show ((revertStockForItem p a).pid == b.productId) = true by
          rw [revert_pid]; exact hpb),
        revert_comm]
    · rw [if_neg hpb, if_pos hpa,
        if_neg (show ¬((revertStockForItem p a).pid == b.productId) = true by
          rw [revert_pid]; exact hpb)]
  · by_cases hpb : (p.pid == b.productId) = true
    · rw [if_pos hpb, if_neg hpa,
        if_neg (show ¬((revertStockForItem p b).pid == a.productId) = true by
          rw [revert_pid]; exact hpa), if_pos hpb]
    · rw [if_neg hpb, if_neg hpa, if_neg hpb]

theorem revertAll_pointwise_swap {ps : List Product} {a : OrderItem}
    (items : List OrderItem) (hnodup : (ps.map Product.pid).Nodup) :
    revertAllStock (pointwiseRevert a ps) items
      = pointwiseRevert a (revertAllStock ps items) := by
  induction items generalizing ps with
  | nil => rfl
  | cons it rest ih =>
    have hnodup2 : ((pointwiseRevert a ps).map Product.pid).Nodup := by
      rw [pointwiseRevert_map_pid]; exact hnodup
    have hnodup3 : ((pointwiseRevert it ps).map Product.pid).Nodup := by
      rw [pointwiseRevert_map_pid]; exact hnodup
    rw [revertAllStock, revertOne_pointwise hnodup2, pointwiseRevert_comm,
      ih hnodup3, revertAllStock, revertOne_pointwise hnodup]

theorem decrementAll_map_pid {ps ps' : List Product} {items : List OrderItem}
    (h : decrementAllStock ps items = .ok ps') :
    ps'.map Product.pid = ps.map Product.pid := by
  induction items generalizing ps with
  | nil => rw [decrementAllStock] at h; obtain rfl := Except.ok.inj h; rfl
  | cons it rest ih =>
    rw [decrementAllStock] at h
    cases hone : decrementOne ps it with
    | error e => rw [hone] at h; exact absurd h (by simp)
    | ok ps1 =>
      rw [hone] at h
      exact (ih h).trans (decrementOne_map_pid hone)

/-- Reversing an order's items restores every product to its state from
before the (successful) stock decrement performed at order creation. -/
theorem decrementAll_revertAll {ps ps' : List Product} {items : List OrderItem}
    (hnodup : (ps.map Product.pid).Nodup) (hshape : ∀ p ∈ ps, p.validShape)
    (h : decrementAllStock ps items = .ok ps') :
    revertAllStock ps' items = ps := by
  induction items generalizing ps with
  | nil => rw [decrementAllStock] at h; obtain rfl := Except.ok.inj h; rfl
  | cons it rest ih =>
    rw [decrementAllStock] at h
    cases hone : decrementOne ps it with
    | error e => rw [hone] at h; exact absurd h (by simp)
    | ok ps1 =>
      rw [hone] at h
      have hnodup1 : (ps1.map Product.pid).Nodup := by
        rw [decrementOne_map_pid hone]; exact hnodup
      have hshape1 : ∀ p ∈ ps1, p.validShape := decrementOne_shape hone hshape
      have hnodup' : (ps'.map Product.pid).Nodup := by
        rw [decrementAll_map_pid h, decrementOne_map_pid hone]; exact hnodup
      rw [revertAllStock, revertOne_pointwise hnodup',
        revertAll_pointwise_swap rest hnodup', ih hnodup1 hshape1 h,
        ← revertOne_pointwise hnodup1, decrementOne_revertOne hnodup hshape hone]

/-! ## Evaluation lemmas for the order operations -/

theorem createOrder_ok {ps : List Product} {odata o : Order} {ps1 : List Product}
    (h : OrdersRepo.createOrder ps odata = .ok (o, ps1)) :
    o = orderPreSave odata ∧ decrementAllStock ps odata.items = .ok ps1 := by
  simp only [OrdersRepo.createOrder] at h
  split at h
  · exact absurd h (by simp)
  · rename_i ps2 hdec
    have h3 := Except.ok.inj h
    have h1 : orderPreSave odata = o := congrArg Prod.fst h3
    have h2 : ps2 = ps1 := congrArg Prod.snd h3
    exact ⟨h1.symm, by rw [← h2]; exact hdec⟩

theorem updateOrderStatus_eval (ps : List Product) (orders : List Order)
    (orderId : Nat) (s : String) (order : Order)
    (hfind : orders.find? (fun o => o.oid == orderId) = some order) :
    OrdersService.updateOrderStatus ps orders orderId s =
      (if s ∈ validStatuses then
        .ok (orderPreSave { order with orderStatus := s },
          (if s = "cancelled" ∧ order.orderStatus ≠ "cancelled"
            then revertAllStock ps order.items else ps),
          orders.map (fun o => if o.oid == orderId then
            orderPreSave { order with orderStatus := s } else o))
      else .error (.invalidStatus s)) := by
  simp only [OrdersService.updateOrderStatus, hfind]
  by_cases hv : validStatuses.contains s = true
  · have hmem : s ∈ validStatuses :=
      List.elem_iff.mp (show List.elem s validStatuses = true from hv)
    rw [if_pos hv]
    simp only [hmem, if_true]
    simp only [OrdersRepo.updateOrderStatus, hfind]
    rw [if_neg (by rw [hv]; simp)]
    by_cases hcancel : s = "cancelled" ∧ order.orderStatus ≠ "cancelled"
    · rw [if_pos (show ((s == "cancelled") && !(order.orderStatus == "cancelled")) = true by
        obtain ⟨rfl, hne⟩ := hcancel
        simp [beq_eq_false_iff_ne.mpr hne]),
        if_pos hcancel]
    · rw [if_neg (show ¬((s == "cancelled") && !(order.orderStatus == "cancelled")) = true by
        simp only [Bool.and_eq_true, beq_iff_eq, Bool.not_eq_true', beq_eq_false_iff_ne,
          ne_eq]
        exact fun hb => hcancel ⟨hb.1, hb.2⟩),
        if_neg hcancel]
  · rw [if_neg hv,
      if_neg (fun hmem =>
        hv (show validStatuses.contains s = true from List.elem_iff.mpr hmem))]

theorem deleteOrder_eval (ps : List Product) (orders : List Order)
    (orderId : Nat) (order : Order)
    (hfind : orders.find? (fun o => o.oid == orderId) = some order) :
    OrdersService.deleteOrder ps orders orderId
      = .ok (order, revertAllStock ps order.items,
          orders.filter (fun o => !(o.oid == orderId))) := by
  simp only [OrdersService.deleteOrder, OrdersRepo.deleteOrder, hfind]

/-! ## Claim theorems -/

/-- C2: for every order successfully created (which decremented stock), with
no intervening modification of the referenced products, cancelling it via
`updateOrderStatus` or deleting it via `deleteOrder` restores every product
— in particular each line's decremented stock field, whether a size
variant, a color variant, or the top-level stock — to its value from
before the order was placed (`ps`).  The product ids are unique and the
variant names non-empty, as the schema guarantees. -/
theorem C2_cancel_and_delete_restore_stock
    (ps ps1 : List Product) (odata o : Order)
    (hnodup : (ps.map Product.pid).Nodup)
    (hshape : ∀ p ∈ ps, p.validShape)
    (hstatus : odata.orderStatus ≠ "cancelled")
    (hcreate : OrdersRepo.createOrder ps odata = .ok (o, ps1)) :
    OrdersService.updateOrderStatus ps1 [o] o.oid "cancelled"
      = .ok (orderPreSave { o with orderStatus := "cancelled" }, ps,
          [orderPreSave { o with orderStatus := "cancelled" }])
    ∧ OrdersService.deleteOrder ps1 [o] o.oid = .ok (o, ps, []) := by
  obtain ⟨rfl, hdec⟩ := createOrder_ok hcreate
  have hrev : revertAllStock ps1 (orderPreSave odata).items = ps :=
    decrementAll_revertAll hnodup hshape
      (show decrementAllStock ps (orderPreSave odata).items = .ok ps1 from hdec)
  have hfind : List.find? (fun x => x.oid == (orderPreSave odata).oid)
      [orderPreSave odata] = some (orderPreSave odata) := by simp
  constructor
  · rw [updateOrderStatus_eval _ _ _ _ _ hfind,
      if_pos (show "cancelled" ∈ validStatuses by decide),
      if_pos (show ("cancelled" : String) = "cancelled"
          ∧ (orderPreSave odata).orderStatus ≠ "cancelled" from ⟨rfl, hstatus⟩),
      hrev]
    simp
  · rw [deleteOrder_eval _ _ _ _ hfind, hrev]
    simp

/-- Witness for C2: a product with a size-9 variant holding 5 units; an
order of 3 units of size 9 is created (stock drops to 2), then cancelled and
(separately) deleted, and the variant stock returns to 5. -/
def c2Product : Product :=
  { pid := 2, name := "Boot", price := 50, salePrice := none, onSale := false,
    stock := 10, sizes := [{ size := "9", stock := 5 }], colors := [] }

def c2OrderData : Order :=
  { oid := 7, userId := 3,
    items := [{ productId := 2, name := "Boot", price := 50, salePrice := none,
                quantity := 3, selectedSize := some "9", selectedColor := none }],
    totalAmount := 150, orderStatus := "pending", paymentStatus := "pending" }

def c2Decremented : Product :=
  { c2Product with sizes := [{ size := "9", stock := 2 }] }

theorem C2_cancel_and_delete_restore_stock_witness :
    (([c2Product].map Product.pid).Nodup
      ∧ (∀ p ∈ [c2Product], p.validShape)
      ∧ c2OrderData.orderStatus ≠ "cancelled"
      ∧ OrdersRepo.createOrder [c2Product] c2OrderData
          = .ok (orderPreSave c2OrderData, [c2Decremented]))
    ∧ (OrdersService.updateOrderStatus [c2Decremented] [orderPreSave c2OrderData]
          (orderPreSave c2OrderData).oid "cancelled"
        = .ok (orderPreSave { orderPreSave c2OrderData with orderStatus := "cancelled" },
            [c2Product],
            [orderPreSave { orderPreSave c2OrderData with orderStatus := "cancelled" }])
      ∧ OrdersService.deleteOrder [c2Decremented] [orderPreSave c2OrderData]
          (orderPreSave c2OrderData).oid
        = .ok (orderPreSave c2OrderData, [c2Product], [])) :=
  ⟨⟨by decide, by decide, by decide, by rfl⟩,
    C2_cancel_and_delete_restore_stock [c2Product] [c2Decremented] c2OrderData
      (orderPreSave c2OrderData) (by decide) (by decide) (by decide) (by rfl)⟩

/-- C5: `updateOrderStatus` rejects a status outside the enumeration with an
error (leaving order and products untouched); it writes the status and, when
the new status is `cancelled` and the prior one was not, atomically
increments exactly the stock decremented at creation (the products return to
their pre-creation state `ps0`); every other accepted transition changes no
product stock at all (the products component stays `ps`). -/
theorem C5_status_enum_and_stock_frame
    (ps0 ps : List Product) (orders : List Order) (orderId : Nat) (s : String)
    (order : Order)
    (hnodup : (ps0.map Product.pid).Nodup)
    (hshape : ∀ p ∈ ps0, p.validShape)
    (hfind : orders.find? (fun o => o.oid == orderId) = some order)
    (hdec : decrementAllStock ps0 order.items = .ok ps) :
    OrdersService.updateOrderStatus ps orders orderId s =
      (if s ∈ validStatuses then
        .ok (orderPreSave { order with orderStatus := s },
          (if s = "cancelled" ∧ order.orderStatus ≠ "cancelled" then ps0 else ps),
          orders.map (fun o => if o.oid == orderId then
            orderPreSave { order with orderStatus := s } else o))
      else .error (.invalidStatus s)) := by
  rw [updateOrderStatus_eval _ _ _ _ _ hfind,
    decrementAll_revertAll hnodup hshape hdec]

def c5Product : Product :=
  { pid := 4, name := "Trail", price := 90, salePrice := none, onSale := false,
    stock := 4, sizes := [], colors := [] }

def c5Order : Order :=
  { oid := 9, userId := 1,
    items := [{ productId := 4, name := "Trail", price := 90, salePrice := none,
                quantity := 1, selectedSize := none, selectedColor := none }],
    totalAmount := 90, orderStatus := "pending", paymentStatus := "pending" }

def c5Decremented : Product := { c5Product with stock := 3 }

theorem C5_status_enum_and_stock_frame_witness :
    ((([c5Product].map Product.pid).Nodup)
      ∧ (∀ p ∈ [c5Product], p.validShape)
      ∧ List.find? (fun o => o.oid == 9) [c5Order] = some c5Order
      ∧ decrementAllStock [c5Product] c5Order.items = .ok [c5Decremented])
    ∧ OrdersService.updateOrderStatus [c5Decremented] [c5Order] 9 "cancelled" =
        (if "cancelled" ∈ validStatuses then
          .ok (orderPreSave { c5Order with orderStatus := "cancelled" },
            (if "cancelled" = "cancelled" ∧ c5Order.orderStatus ≠ "cancelled"
              then [c5Product] else [c5Decremented]),
            [c5Order].map (fun o => if o.oid == 9 then
              orderPreSave { c5Order with orderStatus := "cancelled" } else o))
        else .error (.invalidStatus "cancelled")) :=
  ⟨⟨by decide, by decide, by decide, by rfl⟩,
    C5_status_enum_and_stock_frame [c5Product] [c5Decremented] [c5Order] 9
      "cancelled" c5Order (by decide) (by decide) (by decide) (by rfl)⟩

/-- C10: during stock reversal on cancellation or deletion, when the
referenced product still exists but its non-empty `sizes` (respectively
`colors`) array has no entry matching the line's recorded selector, no stock
field of that product is incremented — not even the top-level stock — and
the cancellation (status write included) and the deletion both complete
without error. -/
theorem C10_missing_variant_skips_increment
    (ps : List Product) (p : Product) (it : OrderItem) (o : Order)
    (hnodup : (ps.map Product.pid).Nodup)
    (hfindp : ps.find? (fun x => x.pid == it.productId) = some p)
    (hitems : o.items = [it])
    (hstatus : o.orderStatus ≠ "cancelled")
    (hmismatch :
      (p.sizes.isEmpty = false ∧ truthyStr it.selectedSize = true
        ∧ ∀ so ∈ p.sizes, it.selectedSize ≠ some so.size)
      ∨ ((!p.sizes.isEmpty && truthyStr it.selectedSize) = false
        ∧ p.colors.isEmpty = false ∧ truthyStr it.selectedColor = true
        ∧ ∀ co ∈ p.colors, it.selectedColor ≠ some co.color)) :
    revertStockForItem p it = p
    ∧ OrdersService.updateOrderStatus ps [o] o.oid "cancelled"
        = .ok (orderPreSave { o with orderStatus := "cancelled" }, ps,
            [orderPreSave { o with orderStatus := "cancelled" }])
    ∧ OrdersService.deleteOrder ps [o] o.oid = .ok (o, ps, []) := by
  have hrevItem : revertStockForItem p it = p := by
    rcases hmismatch with ⟨hsz, htr, hnm⟩ | ⟨hn1, hcz, htc, hnm⟩
    · rw [revertStockForItem, if_pos (by rw [hsz, htr]; rfl),
        incSizes_no_match _ _ hnm]
    · rw [revertStockForItem, if_neg (by rw [hn1]; simp),
        if_pos (by rw [hcz, htc]; rfl), incColors_no_match _ _ hnm]
  have hrevOne : revertOne ps it = ps := by
    rw [revertOne, hfindp]
    show saveProduct ps it.productId (revertStockForItem p it) = ps
    rw [hrevItem, saveProduct_self hnodup hfindp]
  have hall : revertAllStock ps o.items = ps := by
    rw [hitems]
    show revertOne ps it = ps
    exact hrevOne
  have hfindo : List.find? (fun x => x.oid == o.oid) [o] = some o := by simp
  refine ⟨hrevItem, ?_, ?_⟩
  · rw [updateOrderStatus_eval _ _ _ _ _ hfindo,
      if_pos (show "cancelled" ∈ validStatuses by decide),
      if_pos (show ("cancelled" : String) = "cancelled"
          ∧ o.orderStatus ≠ "cancelled" from ⟨rfl, hstatus⟩), hall]
    simp
  · rw [deleteOrder_eval _ _ _ _ hfindo, hall]
    simp

def c10Product : Product :=
  { pid := 6, name := "Court", price := 70, salePrice := none, onSale := false,
    stock := 8, sizes := [{ size := "9", stock := 5 }], colors := [] }

def c10Item : OrderItem :=
  { productId := 6, name := "Court", price := 70, salePrice := none,
    quantity := 2, selectedSize := some "10", selectedColor := none }

def c10Order : Order :=
  { oid := 11, userId := 2, items := [c10Item], totalAmount := 140,
    orderStatus := "pending", paymentStatus := "pending" }

theorem C10_missing_variant_skips_increment_witness :
    ((([c10Product].map Product.pid).Nodup)
      ∧ List.find? (fun x => x.pid == c10Item.productId) [c10Product] = some c10Product
      ∧ c10Order.items = [c10Item]
      ∧ c10Order.orderStatus ≠ "cancelled"
      ∧ (c10Product.sizes.isEmpty = false ∧ truthyStr c10Item.selectedSize = true
          ∧ ∀ so ∈ c10Product.sizes, c10Item.selectedSize ≠ some so.size))
    ∧ (revertStockForItem c10Product c10Item = c10Product
      ∧ OrdersService.updateOrderStatus [c10Product] [c10Order] c10Order.oid "cancelled"
          = .ok (orderPreSave { c10Order with orderStatus := "cancelled" }, [c10Product],
              [orderPreSave { c10Order with orderStatus := "cancelled" }])
      ∧ OrdersService.deleteOrder [c10Product] [c10Order] c10Order.oid
          = .ok (c10Order, [c10Product], [])) :=
  ⟨⟨by decide, by decide, by decide, by decide, by decide, by decide, by decide⟩,
    C10_missing_variant_skips_increment [c10Product] c10Product c10Item c10Order
      (by decide) (by decide) (by decide) (by decide)
      (Or.inl ⟨by decide, by decide, by decide⟩)⟩

theorem buildOrderItems_error_at {ps : List Product} {pre rest : List CartItem}
    {bad : CartItem} {e : OrderErr}
    (hpre : ∀ ci ∈ pre, ∃ r, buildOrderLine ps ci = .ok r)
    (hbad : buildOrderLine ps bad = .error e) :
    buildOrderItems ps (pre ++ bad :: rest) = .error e := by
  induction pre with
  | nil => simp only [List.nil_append, buildOrderItems, hbad]
  | cons ci pre ih =>
    obtain ⟨r, hr⟩ := hpre ci (by simp)
    obtain ⟨oi, lt⟩ := r
    simp only [List.cons_append, buildOrderItems, hr, List.append_eq]
    rw [ih (fun x hx => hpre x (by simp [hx]))]

/-- C1: whenever some cart line's requested quantity exceeds the available
stock that the service resolves for that line (all earlier lines passing),
`createOrderFromCart` fails with the insufficient-stock error carrying the
product name, the requested quantity and the available quantity, and
likewise `createDirectOrder` for a direct line; the `.error` result is the
aborted operation: no order document is created and no stock field of any
product is modified. -/
theorem C1_insufficient_stock_blocks_creation
    (ps : List Product) (cart : Cart) (pre rest : List CartItem) (bad : CartItem)
    (p : Product) (avail : Int) (nid uid : Nat)
    (p2 : Product) (q2 avail2 : Int) (sz2 sc2 : Option String) (nid2 uid2 : Nat)
    (hitems : cart.items = pre ++ bad :: rest)
    (hpre : ∀ ci ∈ pre, ∃ r, buildOrderLine ps ci = .ok r)
    (hfind : ps.find? (fun x => x.pid == bad.product) = some p)
    (hres : resolveAvailableStock p bad.selectedSize bad.selectedColor = .ok avail)
    (hlt : avail < bad.quantity)
    (hq2 : 1 ≤ q2)
    (hfind2 : ps.find? (fun x => x.pid == p2.pid) = some p2)
    (hres2 : resolveAvailableStock p2 sz2 sc2 = .ok avail2)
    (hlt2 : avail2 < q2) :
    OrdersService.createOrderFromCart ps cart nid uid
      = .error (.insufficientStock p.name bad.selectedSize bad.selectedColor
          bad.quantity avail)
    ∧ OrdersService.createDirectOrder ps p2.pid q2 sz2 sc2 nid2 uid2
      = .error (.insufficientStock p2.name sz2 sc2 q2 avail2) := by
  have hbadline : buildOrderLine ps bad
      = .error (.insufficientStock p.name bad.selectedSize bad.selectedColor
          bad.quantity avail) := by
    simp only [buildOrderLine, hfind, hres]
    rw [if_pos hlt]
  constructor
  · rw [OrdersService.createOrderFromCart, if_neg (by simp [hitems])]
    rw [hitems, buildOrderItems_error_at hpre hbadline]
  · rw [OrdersService.createDirectOrder, if_neg (by omega)]
    simp only [hfind2, hres2]
    rw [if_pos hlt2]

def c1Product : Product :=
  { pid := 3, name := "Sprint", price := 120, salePrice := none, onSale := false,
    stock := 2, sizes := [], colors := [] }

def c1Item : CartItem :=
  { product := 3, quantity := 5, price := 120, salePrice := none,
    selectedSize := none, selectedColor := none }

def c1Cart : Cart := { items := [c1Item], totalPrice := 600 }

theorem C1_insufficient_stock_blocks_creation_witness :
    (c1Cart.items = [] ++ c1Item :: []
      ∧ List.find? (fun x => x.pid == 3) [c1Product] = some c1Product
      ∧ resolveAvailableStock c1Product none none = .ok 2
      ∧ (2 : Int) < 5
      ∧ (1 : Int) ≤ 5
      ∧ List.find? (fun x => x.pid == c1Product.pid) [c1Product] = some c1Product)
    ∧ (OrdersService.createOrderFromCart [c1Product] c1Cart 8 1
        = .error (.insufficientStock "Sprint" none none 5 2)
      ∧ OrdersService.createDirectOrder [c1Product] c1Product.pid 5 none none 8 1
        = .error (.insufficientStock "Sprint" none none 5 2)) :=
  ⟨⟨by decide, by decide, by rfl, by decide, by decide, by decide⟩,
    C1_insufficient_stock_blocks_creation [c1Product] c1Cart []
      [] c1Item
      c1Product 2 8 1 c1Product 5 2 none none 8 1
      (by decide) (by simp) (by decide) (by rfl) (by decide)
      (by decide) (by decide) (by rfl) (by decide)⟩

theorem decSizes_no_match (sel : Option String) (q : Int) {l : List SizeOption}
    (h : ∀ s ∈ l, sel ≠ some s.size) : decSizes sel q l = none := by
  induction l with
  | nil => rfl
  | cons s rest ih =>
    rw [decSizes, if_neg (by simpa using h s (by simp)),
      ih (fun x hx => h x (by simp [hx]))]
    rfl

def c4Product : Product :=
  { pid := 2, name := "Boot", price := 50, salePrice := none, onSale := false,
    stock := 10, sizes := [{ size := "9", stock := 5 }], colors := [] }

/-- C4 counterexample: for a product with a `sizes` array and top-level
stock 10, a direct order of 3 units with no selected size resolves the
availability check to the top-level stock (sufficient), yet the claimed
successful order creation does not happen: the repository decrement targets
the size array because it is non-empty and fails with its insufficient-stock
error. -/
theorem C4_counterexample :
    resolveAvailableStock c4Product none none = .ok 10
    ∧ (3 : Int) ≤ 10
    ∧ OrdersService.createDirectOrder [c4Product] 2 3 none none 7 3
        = .error (.repoInsufficientSize "Boot" none) :=
  ⟨rfl, by decide, rfl⟩

/-- C4 (amended): the service-side availability check uses variant stock
only when a selector is truthy and the matching array is non-empty, and
falls back to the top-level stock when no selector is given; the repository
decrement instead targets the size array whenever it is non-empty,
regardless of selection; hence a line with no selected size for a product
with sizes passes the pre-check against sufficient top-level stock while
order creation nevertheless fails with the repository insufficient-stock
error (and no order is created). -/
theorem C4_amended_check_vs_decrement
    (ps : List Product) (p : Product) (q : Int) (nid uid : Nat)
    (hfind : ps.find? (fun x => x.pid == p.pid) = some p)
    (hsz : p.sizes.isEmpty = false)
    (hq : 1 ≤ q) (hstock : ¬p.stock < q) :
    resolveAvailableStock p none none = .ok p.stock
    ∧ decrementStockForItem p
        { productId := p.pid, name := p.name, price := p.price,
          salePrice := p.salePrice, quantity := q,
          selectedSize := none, selectedColor := none }
      = .error (.repoInsufficientSize p.name none)
    ∧ OrdersService.createDirectOrder ps p.pid q none none nid uid
      = .error (.repoInsufficientSize p.name none) := by
  have hdecitem : decrementStockForItem p
      { productId := p.pid, name := p.name, price := p.price,
        salePrice := p.salePrice, quantity := q,
        selectedSize := none, selectedColor := none }
      = .error (.repoInsufficientSize p.name none) := by
    rw [decrementStockForItem, if_pos (by rw [hsz]; rfl),
      decSizes_no_match _ _ (fun s _ => by simp)]
  refine ⟨rfl, hdecitem, ?_⟩
  rw [OrdersService.createDirectOrder, if_neg (by omega)]
  simp only [hfind, show resolveAvailableStock p none none = .ok p.stock from rfl]
  rw [if_neg hstock]
  simp only [OrdersRepo.createOrder, decrementAllStock, decrementOne, orderPreSave,
    hfind, hdecitem]

def c4wProduct : Product :=
  { pid := 5, name := "Peak", price := 60, salePrice := none, onSale := false,
    stock := 9, sizes := [{ size := "8", stock := 4 }], colors := [] }

theorem C4_amended_check_vs_decrement_witness :
    (List.find? (fun x => x.pid == c4wProduct.pid) [c4wProduct] = some c4wProduct
      ∧ c4wProduct.sizes.isEmpty = false
      ∧ (1 : Int) ≤ 2 ∧ ¬(c4wProduct.stock < 2))
    ∧ (resolveAvailableStock c4wProduct none none = .ok c4wProduct.stock
      ∧ decrementStockForItem c4wProduct
          { productId := c4wProduct.pid, name := c4wProduct.name,
            price := c4wProduct.price, salePrice := c4wProduct.salePrice,
            quantity := 2, selectedSize := none, selectedColor := none }
        = .error (.repoInsufficientSize c4wProduct.name none)
      ∧ OrdersService.createDirectOrder [c4wProduct] c4wProduct.pid 2 none none 12 4
        = .error (.repoInsufficientSize c4wProduct.name none)) :=
  ⟨⟨by decide, by decide, by decide, by decide⟩,
    C4_amended_check_vs_decrement [c4wProduct] c4wProduct 2 12 4
      (by decide) (by decide) (by decide) (by decide)⟩

def c3Product : Product :=
  { pid := 1, name := "Runner", price := 100, salePrice := some 80, onSale := false,
    stock := 10, sizes := [], colors := [] }

/-- C3 counterexample: for a product that is not on sale but carries
salePrice 80 lower than price 100 (a state the validation schema admits),
the service computes a build-time total of 100 for one unit while the
persistence hook recomputes and stores 80; the two computations disagree,
refuting the claim that they agree for all price, salePrice and onSale
combinations. -/
theorem C3_counterexample :
    serviceEffectivePrice c3Product * 1 = 100
    ∧ OrdersService.createDirectOrder [c3Product] 1 1 none none 7 3
        = .ok ({ oid := 7, userId := 3,
                 items := [{ productId := 1, name := "Runner", price := 100,
                             salePrice := some 80, quantity := 1,
                             selectedSize := none, selectedColor := none }],
                 totalAmount := 80, orderStatus := "pending",
                 paymentStatus := "pending" },
               [{ c3Product with stock := 9 }])
    ∧ (80 : Int) ≠ 100 :=
  ⟨rfl, rfl, by decide⟩

theorem buildOrderLine_ok {ps : List Product} {ci : CartItem} {oi : OrderItem}
    {lt : Int} (h : buildOrderLine ps ci = .ok (oi, lt)) :
    ∃ p ∈ ps, oi.price = p.price ∧ oi.salePrice = p.salePrice
      ∧ oi.quantity = ci.quantity
      ∧ lt = serviceEffectivePrice p * ci.quantity := by
  rw [buildOrderLine] at h
  split at h
  · exact absurd h (by simp)
  · rename_i p hfind
    split at h
    · exact absurd h (by simp)
    · rename_i avail hres
      split at h
      · exact absurd h (by simp)
      · have h3 := Except.ok.inj h
        have hoi : ({ productId := p.pid, name := p.name, price := p.price,
                      salePrice := p.salePrice, quantity := ci.quantity,
                      selectedSize := ci.selectedSize,
                      selectedColor := ci.selectedColor } : OrderItem) = oi :=
          congrArg Prod.fst h3
        have hlt : serviceEffectivePrice p * ci.quantity = lt :=
          congrArg Prod.snd h3
        exact ⟨p, List.mem_of_find?_eq_some hfind, by rw [← hoi], by rw [← hoi],
          by rw [← hoi], hlt.symm⟩

theorem snapshot_effective {p : Product} {oi : OrderItem}
    (hagree : saleAgrees p) (hprice : oi.price = p.price)
    (hsp : oi.salePrice = p.salePrice) :
    orderItemEffectivePrice oi = serviceEffectivePrice p := by
  rw [orderItemEffectivePrice, serviceEffectivePrice, hprice, hsp]
  cases hps : p.salePrice with
  | none => rfl
  | some sp =>
    show (if sp < p.price then sp else p.price)
      = if p.onSale = true ∧ sp < p.price then sp else p.price
    rcases hagree with hon | hnone | ⟨sp2, hsp2, hle⟩
    · simp [hon]
    · rw [hps] at hnone; exact absurd hnone (by simp)
    · rw [hps] at hsp2
      obtain rfl := Option.some.inj hsp2
      have hnlt : ¬sp < p.price := not_lt.mpr hle
      rw [if_neg hnlt, if_neg (fun hand => hnlt hand.2)]

theorem buildOrderItems_hook_total {ps : List Product} {items : List CartItem}
    {ois : List OrderItem} {total : Int}
    (hagree : ∀ p ∈ ps, saleAgrees p)
    (hbuild : buildOrderItems ps items = .ok (ois, total)) :
    (ois.map (fun it => orderItemEffectivePrice it * it.quantity)).sum = total := by
  induction items generalizing ois total with
  | nil =>
    rw [buildOrderItems] at hbuild
    have h3 := Except.ok.inj hbuild
    have h1 : ([] : List OrderItem) = ois := congrArg Prod.fst h3
    have h2 : (0 : Int) = total := congrArg Prod.snd h3
    rw [← h1, ← h2]; rfl
  | cons ci rest ih =>
    rw [buildOrderItems] at hbuild
    split at hbuild
    · exact absurd hbuild (by simp)
    · rename_i oi lt hline
      split at hbuild
      · exact absurd hbuild (by simp)
      · rename_i ois2 t2 hrest
        have h3 := Except.ok.inj hbuild
        have h1 : oi :: ois2 = ois := congrArg Prod.fst h3
        have h2 : lt + t2 = total := congrArg Prod.snd h3
        obtain ⟨p, hp, hprice, hsp, hqty, hlt⟩ := buildOrderLine_ok hline
        rw [← h1, ← h2, List.map_cons, List.sum_cons, ih hrest,
          snapshot_effective (hagree p hp) hprice hsp, hqty, hlt]

/-- C3 (amended): the build-time total of the service and the recomputed
total of the persistence hook agree for every order whose products are each
on sale, or have no salePrice, or have a salePrice not lower than the price;
for a product that is not on sale with salePrice below price the hook stores
the salePrice-based total, which differs from the service total (see the
counterexample). -/
theorem C3_amended_totals_agree
    (ps : List Product) (items : List CartItem)
    (ois : List OrderItem) (total : Int) (o : Order)
    (hagree : ∀ p ∈ ps, saleAgrees p)
    (hbuild : buildOrderItems ps items = .ok (ois, total))
    (hoi : o.items = ois) (hot : o.totalAmount = total) :
    (orderPreSave o).totalAmount = o.totalAmount := by
  show (o.items.map (fun it => orderItemEffectivePrice it * it.quantity)).sum
    = o.totalAmount
  rw [hoi, hot]
  exact buildOrderItems_hook_total hagree hbuild

def c3wProduct : Product :=
  { pid := 1, name := "Dash", price := 100, salePrice := some 80, onSale := true,
    stock := 10, sizes := [], colors := [] }

def c3wItem : CartItem :=
  { product := 1, quantity := 2, price := 100, salePrice := some 80,
    selectedSize := none, selectedColor := none }

def c3wOrder : Order :=
  { oid := 7, userId := 3,
    items := [{ productId := 1, name := "Dash", price := 100, salePrice := some 80,
                quantity := 2, selectedSize := none, selectedColor := none }],
    totalAmount := 160, orderStatus := "pending", paymentStatus := "pending" }

theorem C3_amended_totals_agree_witness :
    ((∀ p ∈ [c3wProduct], saleAgrees p)
      ∧ buildOrderItems [c3wProduct] [c3wItem] = .ok (c3wOrder.items, 160)
      ∧ c3wOrder.items = c3wOrder.items ∧ c3wOrder.totalAmount = 160)
    ∧ (orderPreSave c3wOrder).totalAmount = c3wOrder.totalAmount :=
  ⟨⟨by intro p hp; rw [List.mem_singleton] at hp; subst hp; exact Or.inl rfl,
    by rfl, rfl, rfl⟩,
    C3_amended_totals_agree [c3wProduct] [c3wItem] c3wOrder.items 160 c3wOrder
      (by intro p hp; rw [List.mem_singleton] at hp; subst hp; exact Or.inl rfl)
      (by rfl) rfl rfl⟩

def c7Product : Product :=
  { pid := 1, name := "Slip", price := 100, salePrice := none, onSale := false,
    stock := 1, sizes := [], colors := [] }

/-- C7: evaluation of the code at the failing input.  The product's scalar
top-level stock is 1, yet adding quantity 5 to an empty cart succeeds
instead of failing with the claimed not-enough-stock error: the repository
compares the quantity against `product.stockQuantity`, a field that does not
exist in the product schema (the scalar field is `stock`), so the JS
comparison `undefined < 5` is false and the stock check can never fire. -/
theorem C7_add_ignores_stock_at_failing_input :
    c7Product.stock < 5
    ∧ CartsRepo.addItemToCart [c7Product] { items := [], totalPrice := 0 }
        1 5 100 none none none
      = .ok { items := [{ product := 1, quantity := 5, price := 100,
                          salePrice := none, selectedSize := none,
                          selectedColor := none }],
              totalPrice := 500 } :=
  ⟨by decide, rfl⟩

def c8Product : Product :=
  { pid := 1, name := "Glide", price := 100, salePrice := some 80, onSale := false,
    stock := 10, sizes := [], colors := [] }

/-- C8 counterexample: the product is not on sale, so the claimed
onSale-aware effective-price rule gives 100 per unit and a cart total of 200
for two units; the cart pre-save hook nevertheless uses the snapshotted
salePrice 80 (without consulting onSale) and persists 160. -/
theorem C8_counterexample :
    CartsService.addItemToCart [c8Product] { items := [], totalPrice := 0 } 1 2 none none
      = .ok { items := [{ product := 1, quantity := 2, price := 100,
                          salePrice := some 80, selectedSize := none,
                          selectedColor := none }],
              totalPrice := 160 }
    ∧ claimedEffectivePrice c8Product.onSale c8Product.salePrice c8Product.price * 2
      = 200
    ∧ (160 : Int) ≠ 200 :=
  ⟨rfl, by decide, by decide⟩

theorem repoAdd_ok_preSave {ps : List Product} {cart : Cart} {productId : Nat}
    {quantity price : Int} {salePrice : Option Int}
    {selectedSize selectedColor : Option String} {c' : Cart}
    (h : CartsRepo.addItemToCart ps cart productId quantity price salePrice
      selectedSize selectedColor = .ok c') : ∃ c0, c' = cartPreSave c0 := by
  simp only [CartsRepo.addItemToCart] at h
  split at h
  · exact absurd h (by simp)
  · split at h
    · exact absurd h (by simp)
    · split at h
      · split at h
        · exact absurd h (by simp)
        · exact ⟨_, (Except.ok.inj h).symm⟩
      · exact ⟨_, (Except.ok.inj h).symm⟩

theorem repoRemove_ok_preSave {cart : Cart} {productId : Nat}
    {selectedSize selectedColor : Option String} {c' : Cart}
    (h : CartsRepo.removeItemFromCart cart productId selectedSize selectedColor
      = .ok c') : ∃ c0, c' = cartPreSave c0 := by
  simp only [CartsRepo.removeItemFromCart] at h
  split at h
  · exact absurd h (by simp)
  · exact ⟨_, (Except.ok.inj h).symm⟩

theorem repoUpdate_ok_preSave {ps : List Product} {cart : Cart} {productId : Nat}
    {newQuantity : Int} {selectedSize selectedColor : Option String} {c' : Cart}
    (h : CartsRepo.updateItemQuantity ps cart productId newQuantity
      selectedSize selectedColor = .ok c') : ∃ c0, c' = cartPreSave c0 := by
  simp only [CartsRepo.updateItemQuantity] at h
  split at h
  · exact absurd h (by simp)
  · split at h
    · exact ⟨_, (Except.ok.inj h).symm⟩
    · split at h
      · exact absurd h (by simp)
      · split at h
        · exact absurd h (by simp)
        · exact ⟨_, (Except.ok.inj h).symm⟩

theorem serviceAdd_ok_preSave {ps : List Product} {cart : Cart} {productId : Nat}
    {quantity : Int} {selectedSize selectedColor : Option String} {c' : Cart}
    (h : CartsService.addItemToCart ps cart productId quantity
      selectedSize selectedColor = .ok c') : ∃ c0, c' = cartPreSave c0 := by
  simp only [CartsService.addItemToCart] at h
  split at h
  · exact absurd h (by simp)
  · exact repoAdd_ok_preSave h

/-- C8 (amended): after every cart mutation — service-level add, remove,
update quantity, clear — the persisted `totalPrice` equals the sum over the
remaining lines of effective price times quantity, where the effective price
is the line's snapshotted `salePrice` when present and lower than the
snapshotted `price`, otherwise the `price`; the product's `onSale` flag is
not consulted (see the counterexample). -/
theorem C8_amended_total_recomputed
    (psA psU : List Product) (cartA cartR cartU cartC : Cart)
    (pidA pidR pidU : Nat) (qA newQ : Int)
    (szA scA szR scR szU scU : Option String) (cA cR cU : Cart)
    (hA : CartsService.addItemToCart psA cartA pidA qA szA scA = .ok cA)
    (hR : CartsRepo.removeItemFromCart cartR pidR szR scR = .ok cR)
    (hU : CartsRepo.updateItemQuantity psU cartU pidU newQ szU scU = .ok cU) :
    cA.totalPrice
      = (cA.items.map (fun it => cartItemEffectivePrice it * it.quantity)).sum
    ∧ cR.totalPrice
      = (cR.items.map (fun it => cartItemEffectivePrice it * it.quantity)).sum
    ∧ cU.totalPrice
      = (cU.items.map (fun it => cartItemEffectivePrice it * it.quantity)).sum
    ∧ (CartsRepo.clearCart cartC).totalPrice
      = ((CartsRepo.clearCart cartC).items.map
          (fun it => cartItemEffectivePrice it * it.quantity)).sum := by
  obtain ⟨a0, rfl⟩ := serviceAdd_ok_preSave hA
  obtain ⟨r0, rfl⟩ := repoRemove_ok_preSave hR
  obtain ⟨u0, rfl⟩ := repoUpdate_ok_preSave hU
  exact ⟨rfl, rfl, rfl, rfl⟩

def c8wProduct : Product :=
  { pid := 2, name := "Pace", price := 50, salePrice := none, onSale := false,
    stock := 10, sizes := [], colors := [] }

def c8wLine : CartItem :=
  { product := 2, quantity := 1, price := 50, salePrice := none,
    selectedSize := none, selectedColor := none }

def c8wCart : Cart := { items := [c8wLine], totalPrice := 50 }

theorem C8_amended_total_recomputed_witness :
    (CartsService.addItemToCart [c8wProduct] { items := [], totalPrice := 0 }
        2 1 none none = .ok (cartPreSave { items := [c8wLine], totalPrice := 0 })
      ∧ CartsRepo.removeItemFromCart c8wCart 2 none none
        = .ok (cartPreSave { c8wCart with items := [] })
      ∧ CartsRepo.updateItemQuantity [c8wProduct] c8wCart 2 2 none none
        = .ok (cartPreSave { c8wCart with
            items := [{ c8wLine with quantity := 2 }] }))
    ∧ ((cartPreSave { items := [c8wLine], totalPrice := 0 }).totalPrice
        = ((cartPreSave { items := [c8wLine], totalPrice := 0 }).items.map
            (fun it => cartItemEffectivePrice it * it.quantity)).sum
      ∧ (cartPreSave { c8wCart with items := [] }).totalPrice
        = ((cartPreSave { c8wCart with items := [] }).items.map
            (fun it => cartItemEffectivePrice it * it.quantity)).sum
      ∧ (cartPreSave { c8wCart with
            items := [{ c8wLine with quantity := 2 }] }).totalPrice
        = ((cartPreSave { c8wCart with
            items := [{ c8wLine with quantity := 2 }] }).items.map
            (fun it => cartItemEffectivePrice it * it.quantity)).sum
      ∧ (CartsRepo.clearCart c8wCart).totalPrice
        = ((CartsRepo.clearCart c8wCart).items.map
            (fun it => cartItemEffectivePrice it * it.quantity)).sum) :=
  ⟨⟨by rfl, by rfl, by rfl⟩,
    C8_amended_total_recomputed [c8wProduct] [c8wProduct]
      { items := [], totalPrice := 0 } c8wCart c8wCart c8wCart 2 2 2 1 2
      none none none none none none
      (cartPreSave { items := [c8wLine], totalPrice := 0 })
      (cartPreSave { c8wCart with items := [] })
      (cartPreSave { c8wCart with items := [{ c8wLine with quantity := 2 }] })
      (by rfl) (by rfl) (by rfl)⟩


theorem findCartLine_append {productId : Nat} {sz sc : Option String}
    {pre : List CartItem} {it : CartItem} {rest : List CartItem}
    (hpre : ∀ x ∈ pre, matchLine productId sz sc x = false)
    (hit : matchLine productId sz sc it = true) :
    findCartLine productId sz sc (pre ++ it :: rest) = some (pre, it, rest) := by
  induction pre with
  | nil => rw [List.nil_append, findCartLine, if_pos hit]
  | cons x pre ih =>
    rw [List.cons_append, findCartLine,
      if_neg (by rw [hpre x (by simp)]; simp),
      ih (fun y hy => hpre y (by simp [hy]))]
    rfl

theorem findCartLine_none {productId : Nat} {sz sc : Option String}
    {l : List CartItem} (h : ∀ x ∈ l, matchLine productId sz sc x = false) :
    findCartLine productId sz sc l = none := by
  induction l with
  | nil => rfl
  | cons x rest ih =>
    rw [findCartLine, if_neg (by rw [h x (by simp)]; simp),
      ih (fun y hy => h y (by simp [hy]))]
    rfl

theorem filter_length_eq_iff {l : List CartItem} {p : CartItem → Bool} :
    (l.filter p).length = l.length ↔ ∀ x ∈ l, p x = true := by
  induction l with
  | nil => simp
  | cons x rest ih =>
    cases hx : p x with
    | true => simp [List.filter_cons, hx, ih]
    | false =>
      simp only [List.filter_cons, hx, Bool.false_eq_true, if_false, List.length_cons]
      constructor
      · intro hlen
        exact absurd hlen (Nat.ne_of_lt (Nat.lt_succ_of_le (List.length_filter_le _ _)))
      · intro hall
        exact absurd (hall x (by simp)) (by simp [hx])

def c6Line9 : CartItem :=
  { product := 1, quantity := 1, price := 100, salePrice := none,
    selectedSize := some "9", selectedColor := none }

def c6Line10 : CartItem :=
  { product := 1, quantity := 1, price := 100, salePrice := none,
    selectedSize := some "10", selectedColor := none }

def c6Cart : Cart := { items := [c6Line9, c6Line10], totalPrice := 200 }

/-- C6 counterexample: the cart holds two lines of product 1 with sizes "9"
and "10"; the removal key (product 1, undefined size, undefined color)
matches no line's triple exactly (both lines carry a defined size), yet
`removeItemFromCart` removes both lines: an undefined selector acts as a
wildcard in removal, not as an ordinary selector value. -/
theorem C6_counterexample :
    (∀ it ∈ c6Cart.items, it.selectedSize ≠ none)
    ∧ CartsRepo.removeItemFromCart c6Cart 1 none none
      = .ok { items := [], totalPrice := 0 } :=
  ⟨by decide, rfl⟩

/-- C6 (amended): add and update-quantity identify a line by exact equality
of the triple (product, selectedSize, selectedColor), with undefined an
ordinary value — an existing exact key has its quantity bumped (add) or set
(update) in place, and a key matching no line exactly appends a new line on
add; remove instead deletes every line whose product matches and whose each
defined selector matches exactly, an undefined selector matching every
value, erring only when no line matches this relaxed criterion. -/
theorem C6_line_identity
    (psA : List Product) (cartA : Cart) (pidA : Nat) (qA prA : Int)
    (spA : Option Int) (szA scA : Option String)
    (preA : List CartItem) (itA : CartItem) (restA : List CartItem) (pA : Product)
    (psB : List Product) (cartB : Cart) (pidB : Nat) (qB prB : Int)
    (spB : Option Int) (szB scB : Option String) (pB : Product)
    (psU : List Product) (cartU : Cart) (pidU : Nat) (newQU : Int)
    (szU scU : Option String)
    (preU : List CartItem) (itU : CartItem) (restU : List CartItem) (pU : Product)
    (cartD : Cart) (pidD : Nat) (szD scD : Option String)
    (hfindA : psA.find? (fun p => p.pid == pidA) = some pA)
    (hzipA : cartA.items = preA ++ itA :: restA)
    (hpreA : ∀ x ∈ preA, matchLine pidA szA scA x = false)
    (hitA : matchLine pidA szA scA itA = true)
    (hfindB : psB.find? (fun p => p.pid == pidB) = some pB)
    (hnoB : ∀ x ∈ cartB.items, matchLine pidB szB scB x = false)
    (hfindU : psU.find? (fun p => p.pid == pidU) = some pU)
    (hzipU : cartU.items = preU ++ itU :: restU)
    (hpreU : ∀ x ∈ preU, matchLine pidU szU scU x = false)
    (hitU : matchLine pidU szU scU itU = true)
    (hposU : 0 < newQU) :
    CartsRepo.addItemToCart psA cartA pidA qA prA spA szA scA
      = .ok (cartPreSave { cartA with
          items := preA ++ { itA with quantity := itA.quantity + qA } :: restA })
    ∧ CartsRepo.addItemToCart psB cartB pidB qB prB spB szB scB
      = .ok (cartPreSave { cartB with
          items := cartB.items ++
            [{ product := pidB, quantity := qB, price := prB, salePrice := spB,
               selectedSize := szB, selectedColor := scB }] })
    ∧ CartsRepo.updateItemQuantity psU cartU pidU newQU szU scU
      = .ok (cartPreSave { cartU with
          items := preU ++ { itU with quantity := newQU } :: restU })
    ∧ CartsRepo.removeItemFromCart cartD pidD szD scD
      = (if cartD.items.any (CartsRepo.removalMatches pidD szD scD) = true then
          .ok (cartPreSave { cartD with
            items := cartD.items.filter
              (fun it => !(CartsRepo.removalMatches pidD szD scD it)) })
        else .error .itemNotFound) := by
  refine ⟨?_, ?_, ?_, ?_⟩
  · simp only [CartsRepo.addItemToCart, hfindA, Product.stockQuantity, jsOptLt,
      Bool.false_eq_true, if_false, hzipA, findCartLine_append hpreA hitA]
  · simp only [CartsRepo.addItemToCart, hfindB, Product.stockQuantity, jsOptLt,
      Bool.false_eq_true, if_false, findCartLine_none hnoB]
  · simp only [CartsRepo.updateItemQuantity, hzipU, findCartLine_append hpreU hitU,
      hfindU, Product.stockQuantity, jsOptLt, Bool.false_eq_true, if_false]
    rw [if_neg (by omega)]
  · rw [CartsRepo.removeItemFromCart]
    by_cases hany : cartD.items.any (CartsRepo.removalMatches pidD szD scD) = true
    · rw [if_pos hany]
      obtain ⟨x, hx, hmx⟩ := List.any_eq_true.mp hany
      rw [if_neg (show ¬((cartD.items.filter
            (fun it => !(CartsRepo.removalMatches pidD szD scD it))).length
              == cartD.items.length) = true by
        simp only [beq_iff_eq]
        intro hlen
        have := filter_length_eq_iff.mp hlen x hx
        rw [hmx] at this
        exact absurd this (by simp))]
    · rw [if_neg hany]
      have hall : ∀ x ∈ cartD.items,
          CartsRepo.removalMatches pidD szD scD x = false := by
        intro x hx
        cases hmx : CartsRepo.removalMatches pidD szD scD x with
        | false => rfl
        | true => exact absurd (List.any_eq_true.mpr ⟨x, hx, hmx⟩) hany
      rw [if_pos (show ((cartD.items.filter
            (fun it => !(CartsRepo.removalMatches pidD szD scD it))).length
              == cartD.items.length) = true by
        simp only [beq_iff_eq]
        exact filter_length_eq_iff.mpr (fun x hx => by rw [hall x hx]; rfl))]

def c6wProduct : Product :=
  { pid := 1, name := "Flex", price := 40, salePrice := none, onSale := false,
    stock := 10, sizes := [], colors := [] }

def c6wLine : CartItem :=
  { product := 1, quantity := 1, price := 40, salePrice := none,
    selectedSize := some "9", selectedColor := none }

def c6wCart : Cart := { items := [c6wLine], totalPrice := 40 }

theorem C6_line_identity_witness :
    (List.find? (fun p => p.pid == 1) [c6wProduct] = some c6wProduct
      ∧ c6wCart.items = [] ++ c6wLine :: []
      ∧ (∀ x ∈ ([] : List CartItem), matchLine 1 (some "9") none x = false)
      ∧ matchLine 1 (some "9") none c6wLine = true
      ∧ (∀ x ∈ c6wCart.items, matchLine 1 none none x = false)
      ∧ (0 : Int) < 5)
    ∧ (CartsRepo.addItemToCart [c6wProduct] c6wCart 1 2 40 none (some "9") none
        = .ok (cartPreSave { c6wCart with
            items := [] ++ { c6wLine with quantity := c6wLine.quantity + 2 } :: [] })
      ∧ CartsRepo.addItemToCart [c6wProduct] c6wCart 1 1 40 none none none
        = .ok (cartPreSave { c6wCart with
            items := c6wCart.items ++
              [{ product := 1, quantity := 1, price := 40, salePrice := none,
                 selectedSize := none, selectedColor := none }] })
      ∧ CartsRepo.updateItemQuantity [c6wProduct] c6wCart 1 5 (some "9") none
        = .ok (cartPreSave { c6wCart with
            items := [] ++ { c6wLine with quantity := 5 } :: [] })
      ∧ CartsRepo.removeItemFromCart c6wCart 1 none none
        = (if c6wCart.items.any (CartsRepo.removalMatches 1 none none) = true then
            .ok (cartPreSave { c6wCart with
              items := c6wCart.items.filter
                (fun it => !(CartsRepo.removalMatches 1 none none it)) })
          else .error .itemNotFound)) :=
  ⟨⟨by decide, by decide, by simp, by decide, by decide, by decide⟩,
    C6_line_identity [c6wProduct] c6wCart 1 2 40 none (some "9") none
      [] c6wLine [] c6wProduct
      [c6wProduct] c6wCart 1 1 40 none none none c6wProduct
      [c6wProduct] c6wCart 1 5 (some "9") none [] c6wLine [] c6wProduct
      c6wCart 1 none none
      (by decide) (by decide) (by simp) (by decide)
      (by decide) (by decide)
      (by decide) (by decide) (by simp) (by decide) (by decide)⟩

theorem failedLogin_step (u : UserState) (t : Int)
    (hperm : u.isPermanentlyLocked = false)
    (hlock : u.lockUntil = none)
    (hcnt : u.failedLoginAttempts + 1 < MAX_LOGIN_ATTEMPTS)
    (hwin : staleWindow u.lastFailedAttemptAt t = false
      ∨ u.failedLoginAttempts = 0) :
    UsersService.loginUser u false t
      = (.invalidCredentials,
         { failedLoginAttempts := u.failedLoginAttempts + 1, lockUntil := none,
           isPermanentlyLocked := false, lastFailedAttemptAt := some t }) := by
  have h2 : lockActive u.lockUntil t = false := by rw [hlock]; rfl
  have h3 : (decide (0 < u.failedLoginAttempts)
      && staleWindow u.lastFailedAttemptAt t) = false := by
    rcases hwin with hw | hz
    · rw [hw]; simp
    · rw [hz]; simp
  have hc5 : u.failedLoginAttempts + 1 < 5 := hcnt
  have h4 : ¬MAX_LOGIN_ATTEMPTS < u.failedLoginAttempts + 1 := by
    show ¬5 < u.failedLoginAttempts + 1
    omega
  have h5 : ¬((u.failedLoginAttempts + 1) == MAX_LOGIN_ATTEMPTS) = true := by
    simp only [beq_iff_eq]
    show ¬u.failedLoginAttempts + 1 = 5
    omega
  simp only [UsersService.loginUser, hperm, h2, h3, Bool.false_eq_true, if_false,
    Bool.not_false, if_true, UsersRepo.incrementFailedLoginAttempts]
  rw [if_neg h4, if_neg h5, hlock]

/-- C9: with threshold N = `MAX_LOGIN_ATTEMPTS` = 5, four consecutive failed
attempts within the reset window leave the account unlocked with counter 4;
the fifth failure temporarily locks it with the computed expiry
`t5 + TEMPORARY_LOCK_TIME`; a further failure after that expiry (within the
reset window) permanently locks the account; a correct password before the
threshold resets the counter and clears any temporary lock; and the checks
run in order: permanent lock first (regardless of password), unexpired
temporary lock second (regardless of password), stale-counter reset third
(so a failure after a stale window leaves the counter at 1, not k + 1), and
the password comparison last. -/
theorem C9_login_lockout_state_machine
    (t1 t2 t3 t4 t5 t6 t7 tp tl ts : Int) (pw : Bool)
    (up ut us : UserState) (lu la : Int)
    (hg2 : t2 - t1 ≤ FAILED_ATTEMPT_RESET_PERIOD)
    (hg3 : t3 - t2 ≤ FAILED_ATTEMPT_RESET_PERIOD)
    (hg4 : t4 - t3 ≤ FAILED_ATTEMPT_RESET_PERIOD)
    (hg5 : t5 - t4 ≤ FAILED_ATTEMPT_RESET_PERIOD)
    (hg6 : t6 - t5 ≤ FAILED_ATTEMPT_RESET_PERIOD)
    (hexp : t5 + TEMPORARY_LOCK_TIME ≤ t6)
    (hup : up.isPermanentlyLocked = true)
    (hut1 : ut.isPermanentlyLocked = false)
    (hut2 : ut.lockUntil = some lu)
    (hut3 : tl < lu)
    (hus1 : us.isPermanentlyLocked = false)
    (hus2 : us.lockUntil = none)
    (hus3 : us.lastFailedAttemptAt = some la)
    (hus4 : FAILED_ATTEMPT_RESET_PERIOD < ts - la)
    (hus5 : 0 < us.failedLoginAttempts) :
    UsersService.runFailedLogins ⟨0, none, false, none⟩ [t1, t2, t3, t4]
      = ⟨4, none, false, some t4⟩
    ∧ UsersService.loginUser ⟨4, none, false, some t4⟩ false t5
      = (.nowTemporarilyLocked,
         ⟨6, some (t5 + TEMPORARY_LOCK_TIME), false, some t5⟩)
    ∧ UsersService.loginUser
        ⟨6, some (t5 + TEMPORARY_LOCK_TIME), false, some t5⟩ false t6
      = (.nowPermanentlyLocked, ⟨0, none, true, none⟩)
    ∧ UsersService.loginUser ⟨4, none, false, some t4⟩ true t7
      = (.success, ⟨0, none, false, none⟩)
    ∧ UsersService.loginUser up pw tp = (.permanentlyLockedError, up)
    ∧ UsersService.loginUser ut pw tl = (.temporarilyLockedError, ut)
    ∧ UsersService.loginUser us false ts
      = (.invalidCredentials, ⟨1, none, false, some ts⟩) := by
  have hP : FAILED_ATTEMPT_RESET_PERIOD = 1800000 := rfl
  have hstep : ∀ (a b : Int) (k : Nat), b - a ≤ FAILED_ATTEMPT_RESET_PERIOD →
      k + 1 < 5 →
      UsersService.loginUser ⟨k, none, false, some a⟩ false b
        = (.invalidCredentials, ⟨k + 1, none, false, some b⟩) := by
    intro a b k hab hk
    exact failedLogin_step ⟨k, none, false, some a⟩ b rfl rfl hk
      (Or.inl (by simp only [staleWindow]; rw [hP] at hab; simp; omega))
  have s1 : UsersService.loginUser ⟨0, none, false, none⟩ false t1
      = (.invalidCredentials, ⟨1, none, false, some t1⟩) :=
    failedLogin_step ⟨0, none, false, none⟩ t1 rfl rfl (by decide) (Or.inr rfl)
  have s2 := hstep t1 t2 1 hg2 (by decide)
  have s3 := hstep t2 t3 2 hg3 (by decide)
  have s4 := hstep t3 t4 3 hg4 (by decide)
  have hrun : UsersService.runFailedLogins ⟨0, none, false, none⟩ [t1, t2, t3, t4]
      = ⟨4, none, false, some t4⟩ := by
    simp only [UsersService.runFailedLogins, s1, s2, s3, s4]
  have hstale5 : staleWindow (some t4) t5 = false := by
    simp only [staleWindow]; rw [hP] at hg5; simp; omega
  have hstale6 : staleWindow (some t5) t6 = false := by
    simp only [staleWindow]; rw [hP] at hg6; simp; omega
  refine ⟨hrun, ?_, ?_, ?_, ?_, ?_, ?_⟩
  · simp only [UsersService.loginUser, UsersRepo.incrementFailedLoginAttempts,
      hstale5, Bool.and_false, Bool.false_eq_true, if_false, Bool.not_false,
      if_true]
    rw [if_neg (show ¬MAX_LOGIN_ATTEMPTS < 4 + 1 by decide),
      if_pos (show ((4 + 1 : Nat) == MAX_LOGIN_ATTEMPTS) = true by decide)]
    rfl
  · simp only [UsersService.loginUser, UsersRepo.incrementFailedLoginAttempts,
      UsersRepo.permanentlyLockUser, hstale6, Bool.and_false, Bool.false_eq_true,
      if_false, Bool.not_false, if_true]
    rw [if_neg (show ¬lockActive (some (t5 + TEMPORARY_LOCK_TIME)) t6 = true by
        simp only [lockActive]; simp; omega),
      if_pos (show MAX_LOGIN_ATTEMPTS < 6 + 1 by decide)]
  · have hlockn : ∀ t : Int, lockActive none t = false := fun _ => rfl
    by_cases hstale7 : staleWindow (some t4) t7 = true
    · simp only [UsersService.loginUser, UsersRepo.resetFailedLoginAttempts,
        hstale7, Bool.and_true, hlockn, Bool.false_eq_true, if_false]
      rw [if_pos (show (decide ((0 : Nat) < 4)) = true by decide)]
      simp
    · have hstale7f : staleWindow (some t4) t7 = false :=
        Bool.eq_false_iff.mpr hstale7
      simp only [UsersService.loginUser, UsersRepo.resetFailedLoginAttempts,
        hstale7f, Bool.and_false, hlockn, Bool.false_eq_true, if_false]
      simp
  · simp only [UsersService.loginUser, hup, if_true]
  · simp only [UsersService.loginUser, hut1, Bool.false_eq_true, if_false]
    rw [if_pos (show lockActive ut.lockUntil tl = true by
      rw [hut2]; simp only [lockActive]; simpa using hut3)]
  · have hstales : staleWindow us.lastFailedAttemptAt ts = true := by
      rw [hus3]; simp only [staleWindow]; simpa using hus4
    simp only [UsersService.loginUser, hus1, Bool.false_eq_true, if_false,
      UsersRepo.resetFailedLoginAttempts, UsersRepo.incrementFailedLoginAttempts]
    rw [if_neg (show ¬lockActive us.lockUntil ts = true by
        rw [hus2]; simp [lockActive]),
      if_pos (show (decide (0 < us.failedLoginAttempts)
          && staleWindow us.lastFailedAttemptAt ts) = true by
        rw [hstales]; simpa using hus5)]
    simp only [Bool.not_false, if_true]
    rw [if_neg (show ¬MAX_LOGIN_ATTEMPTS < 0 + 1 by decide),
      if_neg (show ¬(((0 : Nat) + 1) == MAX_LOGIN_ATTEMPTS) = true by decide)]

theorem C9_login_lockout_state_machine_witness :
    (((0 : Int) - 0 ≤ FAILED_ATTEMPT_RESET_PERIOD)
      ∧ ((60000 : Int) - 0 ≤ FAILED_ATTEMPT_RESET_PERIOD)
      ∧ ((0 : Int) + TEMPORARY_LOCK_TIME ≤ 60000)
      ∧ (UserState.mk 0 none true none).isPermanentlyLocked = true
      ∧ (UserState.mk 0 (some 10) false none).isPermanentlyLocked = false
      ∧ (UserState.mk 0 (some 10) false none).lockUntil = some 10
      ∧ ((5 : Int) < 10)
      ∧ (UserState.mk 3 none false (some 0)).isPermanentlyLocked = false
      ∧ (UserState.mk 3 none false (some 0)).lockUntil = none
      ∧ (UserState.mk 3 none false (some 0)).lastFailedAttemptAt = some 0
      ∧ (FAILED_ATTEMPT_RESET_PERIOD < (1800001 : Int) - 0)
      ∧ (0 < (UserState.mk 3 none false (some 0)).failedLoginAttempts))
    ∧ (UsersService.runFailedLogins ⟨0, none, false, none⟩ [0, 0, 0, 0]
        = ⟨4, none, false, some 0⟩
      ∧ UsersService.loginUser ⟨4, none, false, some 0⟩ false 0
        = (.nowTemporarilyLocked,
           ⟨6, some ((0 : Int) + TEMPORARY_LOCK_TIME), false, some 0⟩)
      ∧ UsersService.loginUser
          ⟨6, some ((0 : Int) + TEMPORARY_LOCK_TIME), false, some 0⟩ false 60000
        = (.nowPermanentlyLocked, ⟨0, none, true, none⟩)
      ∧ UsersService.loginUser ⟨4, none, false, some 0⟩ true 123
        = (.success, ⟨0, none, false, none⟩)
      ∧ UsersService.loginUser ⟨0, none, true, none⟩ false 0
        = (.permanentlyLockedError, ⟨0, none, true, none⟩)
      ∧ UsersService.loginUser ⟨0, some 10, false, none⟩ false 5
        = (.temporarilyLockedError, ⟨0, some 10, false, none⟩)
      ∧ UsersService.loginUser ⟨3, none, false, some 0⟩ false 1800001
        = (.invalidCredentials, ⟨1, none, false, some 1800001⟩)) :=
  ⟨⟨by decide, by decide, by decide, rfl, rfl, rfl, by decide, rfl, rfl, rfl,
    by decide, by decide⟩,
    C9_login_lockout_state_machine 0 0 0 0 0 60000 123 0 5 1800001 false
      ⟨0, none, true, none⟩ ⟨0, some 10, false, none⟩ ⟨3, none, false, some 0⟩
      10 0
      (by decide) (by decide) (by decide) (by decide) (by decide) (by decide)
      rfl rfl rfl (by decide) rfl rfl rfl (by decide) (by decide)⟩

end ShoeStore
